import Mathlib

set_option maxRecDepth 100000

/-!
Verification development for the ProofPal purchase-tracking core
(`app/core/{models,db,alerts,storage,utils}.py`): a shallow embedding of
the persistence layer (items / files / alerts / audit over SQLite), the
alert synchronizer and due-alert scanner, and the content-addressed file
storage, together with theorems settling the specification claims.

Modelling conventions:
- SQLite TEXT dates/timestamps are `String`s compared byte-lexicographically
  (SQLite BINARY collation); `strLe` below implements that order on the
  character data (UTF-8 byte order and codepoint order agree).
- The clock (`datetime.utcnow`, SQLite `date('now', ...)`) is an input
  parameter of each operation that reads it.
- `REAL` amounts are modelled as `Int`; no claim exercises their arithmetic
  beyond summation.
- SQL errors are `Except DBError`; `DBError.fkViolation` models
  `sqlite3.IntegrityError` under `PRAGMA foreign_keys=ON`, `DBError.notFound`
  models the `NotFound` / `FileNotFoundError` taxonomy of the design.
-/

/-! ## Text comparison (SQLite BINARY collation) -/

/-- Lexicographic strict order on character lists by codepoint. -/
def charsLt : List Char → List Char → Bool
  | [], [] => false
  | [], _ :: _ => true
  | _ :: _, [] => false
  | a :: as, b :: bs =>
    if a.toNat < b.toNat then true
    else if b.toNat < a.toNat then false
    else charsLt as bs

/-- `a <= b` in SQLite BINARY collation on TEXT values. -/
def strLe (a b : String) : Bool := !(charsLt b.data a.data)

/-- ASCII lowercase of one character, as Python `str.lower` /
SQLite `LIKE` case folding act on ASCII letters. -/
def lowerAscii (c : Char) : Char :=
  if 65 ≤ c.toNat ∧ c.toNat ≤ 90 then Char.ofNat (c.toNat + 32) else c

/-! ## SHA-256 (`utils.checksum_sha256`)

`hashlib.sha256` fed the file in fixed-size chunks hashes the concatenated
byte stream; the embedding hashes the whole byte list at once, which is the
same function of the content. Words are `Nat` reduced mod `2^32`. -/

def add32 (a b : Nat) : Nat := (a + b) % 4294967296

def rotr32 (n x : Nat) : Nat := ((x >>> n) ||| (x <<< (32 - n))) % 4294967296

def xor32 (a b : Nat) : Nat := a ^^^ b

def and32 (a b : Nat) : Nat := a &&& b

def not32 (x : Nat) : Nat := 4294967295 - x

def sigma0 (x : Nat) : Nat := xor32 (xor32 (rotr32 7 x) (rotr32 18 x)) (x >>> 3)

def sigma1 (x : Nat) : Nat := xor32 (xor32 (rotr32 17 x) (rotr32 19 x)) (x >>> 10)

def bigSigma0 (x : Nat) : Nat := xor32 (xor32 (rotr32 2 x) (rotr32 13 x)) (rotr32 22 x)

def bigSigma1 (x : Nat) : Nat := xor32 (xor32 (rotr32 6 x) (rotr32 11 x)) (rotr32 25 x)

def chFn (x y z : Nat) : Nat := xor32 (and32 x y) (and32 (not32 x) z)

def majFn (x y z : Nat) : Nat := xor32 (xor32 (and32 x y) (and32 x z)) (and32 y z)

def sha256K : List Nat :=
  [1116352408, 1899447441, 3049323471, 3921009573, 961987163, 1508970993,
   2453635748, 2870763221, 3624381080, 310598401, 607225278, 1426881987,
   1925078388, 2162078206, 2614888103, 3248222580, 3835390401, 4022224774,
   264347078, 604807628, 770255983, 1249150122, 1555081692, 1996064986,
   2554220882, 2821834349, 2952996808, 3210313671, 3336571891, 3584528711,
   113926993, 338241895, 666307205, 773529912, 1294757372, 1396182291,
   1695183700, 1986661051, 2177026350, 2456956037, 2730485921, 2820302411,
   3259730800, 3345764771, 3516065817, 3600352804, 4094571909, 275423344,
   430227734, 506948616, 659060556, 883997877, 958139571, 1322822218,
   1537002063, 1747873779, 1955562222, 2024104815, 2227730452, 2361852424,
   2428436474, 2756734187, 3204031479, 3329325298]

def sha256H0 : List Nat :=
  [1779033703, 3144134277, 1013904242, 2773480762,
   1359893119, 2600822924, 528734635, 1541459225]

/-- Big-endian split of a natural number into `n` bytes. -/
def beBytes (n v : Nat) : List Nat :=
  (List.range n).map (fun i => (v >>> (8 * (n - 1 - i))) % 256)

/-- SHA-256 message padding: append `0x80`, zero bytes to 56 mod 64, then
the bit length over 8 big-endian bytes. -/
def sha256Pad (msg : List Nat) : List Nat :=
  let l := msg.length
  let zeros := (64 - ((l + 9) % 64)) % 64
  msg ++ [0x80] ++ List.replicate zeros 0 ++ beBytes 8 (l * 8)

/-- Split into 64-byte blocks; the fuel argument (instantiated with the list
length) makes the recursion structural. -/
def chunks64Aux : Nat → List Nat → List (List Nat)
  | _, [] => []
  | 0, _ :: _ => []
  | fuel + 1, x :: xs => ((x :: xs).take 64) :: chunks64Aux fuel ((x :: xs).drop 64)

def chunks64 (l : List Nat) : List (List Nat) := chunks64Aux l.length l

/-- Big-endian 32-bit words of one 64-byte block. -/
def blockWords (block : List Nat) : List Nat :=
  (List.range 16).map (fun i =>
    (block.getD (4 * i) 0) * 16777216 + (block.getD (4 * i + 1) 0) * 65536 +
    (block.getD (4 * i + 2) 0) * 256 + block.getD (4 * i + 3) 0)

/-- Message schedule: extend the 16 block words to 64. -/
def msgSchedule (w16 : List Nat) : List Nat :=
  (List.range 48).foldl
    (fun w _ =>
      let t := w.length
      w ++ [add32 (add32 (sigma1 (w.getD (t - 2) 0)) (w.getD (t - 7) 0))
                  (add32 (sigma0 (w.getD (t - 15) 0)) (w.getD (t - 16) 0))])
    w16

/-- One round of the SHA-256 compression function on the 8-word state. -/
def sha256Round (kw : Nat × Nat) (st : List Nat) : List Nat :=
  let a := st.getD 0 0
  let b := st.getD 1 0
  let c := st.getD 2 0
  let d := st.getD 3 0
  let e := st.getD 4 0
  let f := st.getD 5 0
  let g := st.getD 6 0
  let h := st.getD 7 0
  let t1 := add32 (add32 (add32 h (bigSigma1 e)) (add32 (chFn e f g) kw.1)) kw.2
  let t2 := add32 (bigSigma0 a) (majFn a b c)
  [add32 t1 t2, a, b, c, add32 d t1, e, f, g]

/-- Compress one 64-byte block into the running hash state. -/
def sha256Block (h : List Nat) (block : List Nat) : List Nat :=
  let w := msgSchedule (blockWords block)
  let st := (sha256K.zip w).foldl (fun st kw => sha256Round kw st) h
  (h.zip st).map (fun p => add32 p.1 p.2)

def sha256Words (msg : List Nat) : List Nat :=
  (chunks64 (sha256Pad msg)).foldl sha256Block sha256H0

def hexChar (n : Nat) : Char :=
  if n < 10 then Char.ofNat (48 + n) else Char.ofNat (87 + n)

/-- Lowercase hex rendering of one 32-bit word. -/
def word32Hex (w : Nat) : List Char :=
  (List.range 8).map (fun i => hexChar ((w >>> (28 - 4 * i)) % 16))

/-- `hashlib.sha256(...).hexdigest()` of a byte list. -/
def sha256Hex (msg : List Nat) : String :=
  ⟨(sha256Words msg).flatMap word32Hex⟩

/-! ## Storage layer (`storage.py`)

The filesystem is an association list from path to byte content; directories
are implicit in the path strings (`ensure_item_dir` / `mkdir` have no
observable effect beyond that). -/

abbrev FS : Type := List (String × List Nat)

def fsLookup (fs : FS) (p : String) : Option (List Nat) :=
  (List.find? (fun e => e.1 = p) fs).map (fun e => e.2)

inductive DBError where
  | notFound
  | fkViolation
deriving DecidableEq, Repr

structure Descriptor where
  path : String
  mime : String
  size : Nat
  checksum : String
  uploaded_at : String
deriving DecidableEq, Repr

/-- Characters of a path after its last `/` (`pathlib.PurePath.name`). -/
def afterLastSlash (cs : List Char) : List Char :=
  cs.foldl (fun acc c => if c = '/' then [] else acc ++ [c]) []

/-- `pathlib` suffix rule: from the last dot, provided that dot is neither
the first nor the last character of the name; empty otherwise. -/
def suffixOfName (name : List Char) : List Char :=
  match ((List.range name.length).filter (fun i => name.getD i ' ' = '.')).getLast? with
  | none => []
  | some i => if 0 < i ∧ i + 1 < name.length then name.drop i else []

/-- `src.suffix.lower()` for a path string. -/
def pathSuffixLower (p : String) : String :=
  ⟨(suffixOfName (afterLastSlash p.data)).map lowerAscii⟩

/-- Modelled from the Python stdlib `mimetypes` table (the entries relevant
here); `guess_type` keys on the lowercased extension. -/
def mimeFromExt (ext : String) : Option String :=
  if ext = ".pdf" then some "application/pdf"
  else if ext = ".png" then some "image/png"
  else if ext = ".jpg" then some "image/jpeg"
  else if ext = ".jpeg" then some "image/jpeg"
  else if ext = ".gif" then some "image/gif"
  else if ext = ".txt" then some "text/plain"
  else none

/-- `storage.copy_file_to_item`: content-addressed copy into the per-item
directory under `filesDir` (= `utils.files_dir()`); `now` is
`datetime.utcnow().isoformat(timespec="seconds")`. -/
def copy_file_to_item (filesDir : String) (fs : FS) (src : String) (itemId : Nat)
    (now : String) : Except DBError (Descriptor × FS) :=
  match fsLookup fs src with
  | none => .error .notFound
  | some content =>
    let checksum := sha256Hex content
    let ext := pathSuffixLower src
    let destName : String := ⟨checksum.data.take 16 ++ ext.data⟩
    let dest := filesDir ++ "/" ++ toString itemId ++ "/" ++ destName
    let fs1 : FS := if (fsLookup fs dest).isSome then fs else fs ++ [(dest, content)]
    let size := ((fsLookup fs1 dest).getD []).length
    let mime := (mimeFromExt (pathSuffixLower destName)).getD "application/octet-stream"
    .ok ({ path := dest, mime := mime, size := size, checksum := checksum,
           uploaded_at := now }, fs1)

/-! ## Data model (`db.py` schema, `models.py` rows)

`items.id` / `alerts.id` / `files.id` / `audit.id` are
`INTEGER PRIMARY KEY AUTOINCREMENT`: the embedding carries the next value of
each as a counter in the database state. The `alerts.type` column is TEXT
with `CHECK(type IN ('return','warranty'))`; the check is stated as the
well-formedness predicate `alertTypesWF` below. -/

structure Item where
  id : Nat
  title : String
  store : String
  category : String
  purchase_date : String
  total_amount : Int
  return_until : String
  warranty_until : String
  notes : String
  created_at : String
  updated_at : String
deriving DecidableEq, Repr

structure Alert where
  id : Nat
  item_id : Nat
  type : String
  due_on : String
  sent_at : Option String
deriving DecidableEq, Repr

structure FileRow where
  id : Nat
  item_id : Nat
  path : String
  mime : String
  size : Nat
  checksum : String
  uploaded_at : String
deriving DecidableEq, Repr

/-- `json.dumps` payload values occurring in `log_action` calls. -/
inductive JVal where
  | jnum (n : Int)
  | jstr (s : String)
deriving DecidableEq, Repr

structure AuditRow where
  id : Nat
  action : String
  details : List (String × JVal)
  ts : String
deriving DecidableEq, Repr

structure DB where
  items : List Item
  alerts : List Alert
  files : List FileRow
  audit : List AuditRow
  nextItemId : Nat
  nextAlertId : Nat
  nextFileId : Nat
  nextAuditId : Nat
deriving DecidableEq, Repr

def emptyDB : DB :=
  { items := [], alerts := [], files := [], audit := [],
    nextItemId := 1, nextAlertId := 1, nextFileId := 1, nextAuditId := 1 }

/-- The schema CHECK constraint on `alerts.type`. -/
def alertTypesWF (db : DB) : Prop :=
  ∀ a ∈ db.alerts, a.type = "return" ∨ a.type = "warranty"

/-- Foreign-key integrity: every alert row references an existing item. -/
def alertFKWF (db : DB) : Prop :=
  ∀ a ∈ db.alerts, ∃ it ∈ db.items, it.id = a.item_id

/-- Input dictionary for `add_item` / `update_item` (the validated field
dictionary crossing the UI boundary). -/
structure ItemData where
  title : String
  store : String
  category : String
  purchase_date : String
  total_amount : Int
  return_until : String
  warranty_until : String
  notes : String
deriving DecidableEq, Repr

/-! ## Stable sorting (SQL `ORDER BY`)

`ORDER BY` results are modelled as a stable insertion sort with respect to a
boolean "comes-no-later-than" relation; ties keep table (insertion) order,
the deterministic choice §8 of the design asks for. -/

def sortedInsert (le : α → α → Bool) (a : α) : List α → List α
  | [] => [a]
  | b :: l => if le a b then a :: b :: l else b :: sortedInsert le a l

def sortBy (le : α → α → Bool) (l : List α) : List α :=
  l.foldr (sortedInsert le) []

/-! ## Persistence operations (`models.py`)

Every operation that reads the clock takes the timestamp as the `now`
argument (`_now()` in the source). -/

/-- `models.log_action`: append-only audit insert. -/
def log_action (db : DB) (action : String) (details : List (String × JVal))
    (now : String) : DB :=
  { db with
    audit := db.audit ++ [{ id := db.nextAuditId, action := action,
                            details := details, ts := now }],
    nextAuditId := db.nextAuditId + 1 }

/-- One iteration of the loop in `models._sync_alerts`: `fetchone` on the
`(item_id, type)` pair, then `UPDATE ... SET due_on=?, sent_at=NULL` on the
found row, or `INSERT` of an unsent row (which under
`PRAGMA foreign_keys=ON` fails when the item does not exist). -/
def syncOne (db : DB) (itemId : Nat) (alertType : String) (due : String) :
    Except DBError DB :=
  match db.alerts.find? (fun a => a.item_id = itemId && a.type = alertType) with
  | some row =>
    .ok { db with
          alerts := db.alerts.map (fun a =>
            if a.id = row.id then { a with due_on := due, sent_at := none } else a) }
  | none =>
    if db.items.any (fun it => it.id = itemId) then
      .ok { db with
            alerts := db.alerts ++ [{ id := db.nextAlertId, item_id := itemId,
                                      type := alertType, due_on := due, sent_at := none }],
            nextAlertId := db.nextAlertId + 1 }
    else
      .error .fkViolation

/-- `models._sync_alerts`: the loop body for `("return", return_until)` then
`("warranty", warranty_until)`. -/
def sync_alerts (db : DB) (itemId : Nat) (return_until warranty_until : String) :
    Except DBError DB :=
  (syncOne db itemId "return" return_until).bind
    (fun db1 => syncOne db1 itemId "warranty" warranty_until)

/-- `models.add_file`: INSERT into `files` plus a `file_added` audit entry;
the FK constraint rejects an absent item. -/
def add_file (db : DB) (itemId : Nat) (fd : Descriptor) (now : String) :
    Except DBError (Nat × DB) :=
  if db.items.any (fun it => it.id = itemId) then
    let fid := db.nextFileId
    let db1 := { db with
                 files := db.files ++ [{ id := fid, item_id := itemId, path := fd.path,
                                         mime := fd.mime, size := fd.size,
                                         checksum := fd.checksum,
                                         uploaded_at := fd.uploaded_at }],
                 nextFileId := fid + 1 }
    .ok (fid, log_action db1 "file_added"
          [("item_id", .jnum itemId), ("path", .jstr fd.path)] now)
  else
    .error .fkViolation

/-- `models.add_item`: insert the item with `created_at = updated_at = now`,
synchronize both alerts, insert the optional files, log `item_created`. -/
def add_item (db : DB) (data : ItemData) (files : List Descriptor) (now : String) :
    Except DBError (Nat × DB) :=
  let iid := db.nextItemId
  let item : Item :=
    { id := iid, title := data.title, store := data.store, category := data.category,
      purchase_date := data.purchase_date, total_amount := data.total_amount,
      return_until := data.return_until, warranty_until := data.warranty_until,
      notes := data.notes, created_at := now, updated_at := now }
  let db1 := { db with items := db.items ++ [item], nextItemId := iid + 1 }
  (sync_alerts db1 iid data.return_until data.warranty_until).bind (fun db2 =>
    (files.foldlM (fun acc fd => (add_file acc iid fd now).map (fun r => r.2)) db2).bind
      (fun db3 =>
        .ok (iid, log_action db3 "item_created"
              [("item_id", .jnum iid), ("title", .jstr data.title)] now)))

/-- `models.update_item`: an unconditional `UPDATE ... WHERE id=:id` (which
silently touches no row when the id is absent), then `_sync_alerts`, then the
`item_updated` audit entry. There is no existence check. -/
def update_item (db : DB) (itemId : Nat) (data : ItemData) (now : String) :
    Except DBError DB :=
  let db1 := { db with
               items := db.items.map (fun it =>
                 if it.id = itemId then
                   { it with
                     title := data.title, store := data.store,
                     category := data.category, purchase_date := data.purchase_date,
                     total_amount := data.total_amount, return_until := data.return_until,
                     warranty_until := data.warranty_until, notes := data.notes,
                     updated_at := now }
                 else it) }
  (sync_alerts db1 itemId data.return_until data.warranty_until).bind (fun db2 =>
    .ok (log_action db2 "item_updated" [("item_id", .jnum itemId)] now))

/-- `models.delete_item`: `DELETE FROM items WHERE id=?` with
`ON DELETE CASCADE` removing the children of each deleted parent row, then
the `item_deleted` audit entry; an absent id deletes nothing and raises
nothing. -/
def delete_item (db : DB) (itemId : Nat) (now : String) : DB :=
  let db1 :=
    if db.items.any (fun it => it.id = itemId) then
      { db with
        items := db.items.filter (fun it => it.id ≠ itemId),
        files := db.files.filter (fun f => f.item_id ≠ itemId),
        alerts := db.alerts.filter (fun a => a.item_id ≠ itemId) }
    else db
  log_action db1 "item_deleted" [("item_id", .jnum itemId)] now

/-- `models.get_item`. -/
def get_item (db : DB) (itemId : Nat) : Option Item :=
  db.items.find? (fun it => it.id = itemId)

/-- `models.delete_file`. -/
def delete_file (db : DB) (fileId : Nat) (now : String) : DB :=
  log_action { db with files := db.files.filter (fun f => f.id ≠ fileId) }
    "file_deleted" [("file_id", .jnum fileId)] now

/-- `models.list_files`: `WHERE item_id=? ORDER BY uploaded_at`. -/
def list_files (db : DB) (itemId : Nat) : List FileRow :=
  sortBy (fun a b => strLe a.uploaded_at b.uploaded_at)
    (db.files.filter (fun f => f.item_id = itemId))

/-- `strftime('%Y-%m', d)` for an ISO `YYYY-MM-DD` TEXT date. -/
def monthOf (d : String) : String := ⟨d.data.take 7⟩

structure Stats where
  total_items : Nat
  returns_due : Nat
  warranties_due : Nat
  monthly_total : Int
  recent_actions : List AuditRow
deriving DecidableEq, Repr

/-- `models.count_stats`; `nowPlus7`, `nowPlus60` and `nowMonth` are the
values of SQLite `date('now','+7 day')`, `date('now','+60 day')` and
`strftime('%Y-%m','now')`. -/
def count_stats (db : DB) (nowPlus7 nowPlus60 nowMonth : String) : Stats :=
  { total_items := db.items.length,
    returns_due := (db.items.filter (fun it => strLe it.return_until nowPlus7)).length,
    warranties_due := (db.items.filter (fun it => strLe it.warranty_until nowPlus60)).length,
    monthly_total := (db.items.filter (fun it => monthOf it.purchase_date = nowMonth)).foldl
      (fun s it => s + it.total_amount) 0,
    recent_actions := (sortBy (fun a b => strLe b.ts a.ts) db.audit).take 5 }

/-- A row of the `list_due_alerts` join. -/
structure DueRow where
  alert_id : Nat
  type : String
  due_on : String
  sent_at : Option String
  item_id : Nat
  title : String
  store : String
deriving DecidableEq, Repr

/-- `models.list_due_alerts`: unsent alerts due by `today` joined with their
item (`items.id` is a primary key, so at most one item matches), ordered by
due date. -/
def list_due_alerts (db : DB) (today : String) : List DueRow :=
  sortBy (fun r s => strLe r.due_on s.due_on)
    (db.alerts.filterMap (fun a =>
      if a.sent_at = none ∧ strLe a.due_on today then
        (db.items.find? (fun it => it.id = a.item_id)).map (fun it =>
          { alert_id := a.id, type := a.type, due_on := a.due_on, sent_at := a.sent_at,
            item_id := it.id, title := it.title, store := it.store })
      else none))

/-- `models.mark_alert_sent`. -/
def mark_alert_sent (db : DB) (alertId : Nat) (now : String) : DB :=
  { db with
    alerts := db.alerts.map (fun a =>
      if a.id = alertId then { a with sent_at := some now } else a) }

/-! ## Due-alert scanner (`alerts.py`)

The notifier is the observable capability of `toast`: `none` models the
fallback path (no `ToastNotifier` importable or constructible — `toast`
prints a log line and returns), `some f` models a constructed notifier whose
`show_toast` call returns normally exactly when `f` applied to the
`(title, message)` pair is `true`, and raises otherwise.  An exception
propagates out of `check_due`, leaving the connection with whatever marks
the loop had already written: the `Except` error value carries that state. -/

def alertLabel (t : String) : String := if t = "return" then "Retour" else "Garantie"

/-- The `(title, message)` pair `check_due` passes to `toast`. -/
def toastMsg (r : DueRow) : String × String :=
  (alertLabel r.type ++ " à traiter",
   r.title ++ " chez " ++ r.store ++ " (échéance " ++ r.due_on ++ ")")

/-- The loop body of `alerts.check_due` over the pre-fetched due list. -/
def processDue (notifier : Option ((String × String) → Bool)) (ts : String) :
    List DueRow → DB → Except DB DB
  | [], db => .ok db
  | r :: rs, db =>
    match notifier with
    | none => processDue none ts rs (mark_alert_sent db r.alert_id ts)
    | some f =>
      if f (toastMsg r) then
        processDue (some f) ts rs (mark_alert_sent db r.alert_id ts)
      else
        .error db

/-- `alerts.check_due`: fetch the due list once, toast and mark each row,
return how many rows the list held. `today` is SQLite `date('now')`, `ts`
the `_now()` timestamp used for `sent_at`. -/
def check_due (notifier : Option ((String × String) → Bool)) (today ts : String)
    (db : DB) : Except DB (Nat × DB) :=
  let due := list_due_alerts db today
  (processDue notifier ts due db).map (fun db2 => (due.length, db2))

/-! ## SQL `LIKE` and the `list_items` filters (`models.list_items`)

SQLite `LIKE` matches `%` against any character sequence and `_` against any
single character, comparing other characters ASCII-case-insensitively. The
fuel argument (pattern length + string length suffices) makes the recursion
structural so that the kernel can evaluate it. -/

def likeMatchAux : Nat → List Char → List Char → Bool
  | 0, _, _ => false
  | fuel + 1, p, s =>
    match p with
    | [] => s.isEmpty
    | c :: p' =>
      if c = '%' then
        likeMatchAux fuel p' s ||
          (match s with
           | [] => false
           | _ :: s' => likeMatchAux fuel (c :: p') s')
      else if c = '_' then
        match s with
        | [] => false
        | _ :: s' => likeMatchAux fuel p' s'
      else
        match s with
        | [] => false
        | d :: s' => (lowerAscii c = lowerAscii d) && likeMatchAux fuel p' s'

def likeMatch (p s : List Char) : Bool :=
  likeMatchAux (p.length + s.length + 1) p s

/-- `column LIKE :text` with the bound value `f"%{text}%"`. -/
def likeContains (text s : String) : Bool :=
  likeMatch ('%' :: (text.data ++ ['%'])) s.data

/-- The optional filter dictionary of `models.list_items`; `end_` stands for
the `"end"` key. -/
structure Filters where
  text : Option String := none
  store : Option String := none
  category : Option String := none
  start : Option String := none
  end_ : Option String := none
  due_return : Option String := none
  due_warranty : Option String := none
deriving DecidableEq, Repr

/-- Python truthiness of `filters.get(key)`: an absent key and an empty
string both skip the clause (`if text := filters.get("text")`). -/
def activeStr : Option String → Option String
  | some s => if s = "" then none else some s
  | none => none

/-- The WHERE clause of `models.list_items` as a row predicate (all present
clauses are ANDed). -/
def rowMatches (f : Filters) (it : Item) : Bool :=
  (match activeStr f.text with
   | none => true
   | some t => likeContains t it.title || likeContains t it.store ||
       likeContains t it.category) &&
  (match activeStr f.store with | none => true | some s => it.store = s) &&
  (match activeStr f.category with | none => true | some c => it.category = c) &&
  (match activeStr f.start with | none => true | some a => strLe a it.purchase_date) &&
  (match activeStr f.end_ with | none => true | some b => strLe it.purchase_date b) &&
  (match activeStr f.due_return with
   | none => true | some d => strLe it.return_until d) &&
  (match activeStr f.due_warranty with
   | none => true | some d => strLe it.warranty_until d)

/-- `models.list_items`: filtered rows ordered by purchase date descending
(ties in table order). -/
def list_items (db : DB) (f : Filters) : List Item :=
  sortBy (fun a b => strLe b.purchase_date a.purchase_date)
    (db.items.filter (rowMatches f))

/-! ## Well-formedness predicates and spec-side filter predicate -/

/-- Two alert rows clash when they share the `(item_id, type)` key. -/
def keyClash (a b : Alert) : Prop := a.item_id = b.item_id ∧ a.type = b.type

instance : DecidablePred (fun p : Alert × Alert => keyClash p.1 p.2) :=
  fun _ => by unfold keyClash; infer_instance

instance (a b : Alert) : Decidable (keyClash a b) := by unfold keyClash; infer_instance

/-- The synchronizer invariant: at most one alert row per `(item, kind)`. -/
def alertUnique (db : DB) : Prop :=
  db.alerts.Pairwise (fun a b => ¬ keyClash a b)

instance (db : DB) : Decidable (alertUnique db) := by
  unfold alertUnique; infer_instance

instance {ε α : Type} [DecidableEq ε] [DecidableEq α] : DecidableEq (Except ε α) :=
  fun a b =>
    match a, b with
    | .error e, .error f =>
      if h : e = f then isTrue (by rw [h]) else isFalse (fun hc => h (Except.error.inj hc))
    | .error _, .ok _ => isFalse (fun hc => Except.noConfusion hc)
    | .ok _, .error _ => isFalse (fun hc => Except.noConfusion hc)
    | .ok x, .ok y =>
      if h : x = y then isTrue (by rw [h]) else isFalse (fun hc => h (Except.ok.inj hc))

/-- `INTEGER PRIMARY KEY AUTOINCREMENT` invariant on `alerts`: ids are
pairwise distinct and below the next id the counter will hand out. -/
def alertIdsWF (db : DB) : Prop :=
  (db.alerts.map (fun a => a.id)).Nodup ∧ ∀ a ∈ db.alerts, a.id < db.nextAlertId

instance (db : DB) : Decidable (alertIdsWF db) := by
  unfold alertIdsWF; infer_instance

instance (db : DB) : Decidable (alertTypesWF db) := by
  unfold alertTypesWF; infer_instance

instance (db : DB) : Decidable (alertFKWF db) := by
  unfold alertFKWF; infer_instance

/-- The text contains no `LIKE` wildcard character. -/
def noWildcard (t : List Char) : Bool :=
  t.all (fun c => !(c = '%' ∨ c = '_'))

/-- ASCII-case-insensitive substring test, written from the specification's
words ("free-text substring match", with the case-insensitivity its own
`"lap"`-matches-`"Laptop"` example requires): the lowercased needle is a
prefix of some suffix of the lowercased haystack. -/
def ciContainsB (t s : String) : Bool :=
  let tl := t.data.map lowerAscii
  let sl := s.data.map lowerAscii
  (List.range (sl.length + 1)).any (fun n => tl.isPrefixOf (sl.drop n))

/-- Case-sensitive literal substring test (the strict reading of
"free-text substring match" in the claim as stated). -/
def strictContainsB (t s : String) : Bool :=
  (List.range (s.data.length + 1)).any (fun n => t.data.isPrefixOf (s.data.drop n))

/-- Modelled from the spec: "items matching an optional filter set —
free-text substring match over title/store/category, exact match on
store/category, inclusive date-range on purchase date, and due-before
thresholds on return/warranty deadlines; all filters ANDed; absent filters
impose no constraint", with the free-text match read case-insensitively
(and empty-string filters treated as absent, Python truthiness). -/
def specMatches (f : Filters) (it : Item) : Bool :=
  (match activeStr f.text with
   | none => true
   | some t => ciContainsB t it.title || ciContainsB t it.store ||
       ciContainsB t it.category) &&
  (match activeStr f.store with | none => true | some s => it.store = s) &&
  (match activeStr f.category with | none => true | some c => it.category = c) &&
  (match activeStr f.start with | none => true | some a => strLe a it.purchase_date) &&
  (match activeStr f.end_ with | none => true | some b => strLe it.purchase_date b) &&
  (match activeStr f.due_return with
   | none => true | some d => strLe it.return_until d) &&
  (match activeStr f.due_warranty with
   | none => true | some d => strLe it.warranty_until d)

/-- The claim-as-stated reading of the `list_items` filter set: identical to
`specMatches` except that the free-text clause is a case-sensitive literal
substring match. -/
def rowMatchesStrict (f : Filters) (it : Item) : Bool :=
  (match activeStr f.text with
   | none => true
   | some t => strictContainsB t it.title || strictContainsB t it.store ||
       strictContainsB t it.category) &&
  (match activeStr f.store with | none => true | some s => it.store = s) &&
  (match activeStr f.category with | none => true | some c => it.category = c) &&
  (match activeStr f.start with | none => true | some a => strLe a it.purchase_date) &&
  (match activeStr f.end_ with | none => true | some b => strLe it.purchase_date b) &&
  (match activeStr f.due_return with
   | none => true | some d => strLe it.return_until d) &&
  (match activeStr f.due_warranty with
   | none => true | some d => strLe it.warranty_until d)

/-! ## Concrete sample data (used by witnesses and counterexamples)

`sampleData` is the §8 scenario item: purchased 2024-01-01, return deadline
2024-01-15, warranty deadline 2026-01-01. -/

def sampleData : ItemData :=
  { title := "Laptop", store := "Fnac", category := "Electronics",
    purchase_date := "2024-01-01", total_amount := 999,
    return_until := "2024-01-15", warranty_until := "2026-01-01", notes := "" }

def sampleData2 : ItemData :=
  { title := "Desk", store := "Ikea", category := "Furniture",
    purchase_date := "2024-02-03", total_amount := 120,
    return_until := "2024-02-17", warranty_until := "2025-02-03", notes := "" }

/-- The database after creating the §8 scenario item. -/
def db1 : DB :=
  match add_item emptyDB sampleData [] "2024-01-01T10:00:00" with
  | .ok r => r.2
  | .error _ => emptyDB

/-- `db1` after a scan on 2024-01-16 (the return alert fires and is marked
sent, the warranty alert stays pending). -/
def db1scanned : DB :=
  match check_due none "2024-01-16" "2024-01-16T09:00:00" db1 with
  | .ok r => r.2
  | .error d => d

/-- `db1` plus a second item; on 2024-03-01 both return alerts are due. -/
def db2 : DB :=
  match add_item db1 sampleData2 [] "2024-02-03T10:00:00" with
  | .ok r => r.2
  | .error _ => db1

/-- `db1` after updating item 1 with the second item's field values
(re-arming both alerts with new due dates). -/
def db1updated : DB :=
  match update_item db1 1 sampleData2 "2024-02-10T00:00:00" with
  | .ok d => d
  | .error _ => db1

/-- A one-file filesystem holding the bytes `"abc"`. -/
def demoFS : FS := [("/tmp/receipt.txt", [97, 98, 99])]

/-- Shorthand for the destination file name `copy_file_to_item` builds:
first 16 hex characters of the checksum plus the source's lowercased
extension. -/
def destNameOf (content : List Nat) (src : String) : String :=
  ⟨(sha256Hex content).data.take 16 ++ (pathSuffixLower src).data⟩

/-- Shorthand for the destination path under the per-item directory. -/
def destOf (filesDir : String) (itemId : Nat) (content : List Nat) (src : String) : String :=
  filesDir ++ "/" ++ toString itemId ++ "/" ++ destNameOf content src

/-! # Theorems

## Generic helper lemmas -/

theorem charsLt_irrefl (l : List Char) : charsLt l l = false := by
  induction l with
  | nil => rfl
  | cons a t ih => simp [charsLt, ih]

theorem charsLt_trans {a b c : List Char} (h1 : charsLt a b = true)
    (h2 : charsLt b c = true) : charsLt a c = true := by
  induction a generalizing b c with
  | nil =>
    cases b with
    | nil => simp [charsLt] at h1
    | cons y ys => cases c with
      | nil => simp [charsLt] at h2
      | cons z zs => simp [charsLt]
  | cons x xs ih =>
    cases b with
    | nil => simp [charsLt] at h1
    | cons y ys =>
      cases c with
      | nil => simp [charsLt] at h2
      | cons z zs =>
        simp only [charsLt] at h1 h2 ⊢
        split_ifs at h1 h2 ⊢ <;> first
          | rfl
          | omega
          | (exact ih h1 h2)

theorem charsLt_trichotomy (a b : List Char) :
    charsLt a b = true ∨ charsLt b a = true ∨ a = b := by
  induction a generalizing b with
  | nil => cases b <;> simp [charsLt]
  | cons x xs ih =>
    cases b with
    | nil => simp [charsLt]
    | cons y ys =>
      rcases Nat.lt_trichotomy x.toNat y.toNat with h | h | h
      · left; simp [charsLt, h]
      · have hxy : x = y := Char.ext (UInt32.toNat.inj h)
        subst hxy
        rcases ih ys with h2 | h2 | h2
        · left; simp [charsLt, h2]
        · right; left; simp [charsLt, h2]
        · right; right; rw [h2]
      · right; left; simp [charsLt, h, Nat.lt_asymm h]

theorem strLe_total (a b : String) : strLe a b = true ∨ strLe b a = true := by
  unfold strLe
  by_cases h1 : charsLt b.data a.data = true
  · by_cases h2 : charsLt a.data b.data = true
    · have := charsLt_trans h1 h2
      rw [charsLt_irrefl] at this
      exact absurd this (by simp)
    · right; simp [Bool.not_eq_true] at h2; simp [h2]
  · left; simp [Bool.not_eq_true] at h1; simp [h1]

theorem strLe_trans {a b c : String} (h1 : strLe a b = true)
    (h2 : strLe b c = true) : strLe a c = true := by
  have h1' : charsLt b.data a.data = false := by simpa [strLe] using h1
  have h2' : charsLt c.data b.data = false := by simpa [strLe] using h2
  suffices h : charsLt c.data a.data = false by simpa [strLe] using h
  by_contra hne
  have hca : charsLt c.data a.data = true := by
    cases hcv : charsLt c.data a.data
    · exact absurd hcv hne
    · rfl
  rcases charsLt_trichotomy a.data b.data with h | h | h
  · have := charsLt_trans hca h
    simp [h2'] at this
  · simp [h1'] at h
  · rw [h] at hca
    simp [h2'] at hca

/-! Stable insertion sort facts. -/

theorem sortedInsert_perm (le : α → α → Bool) (a : α) (l : List α) :
    (sortedInsert le a l).Perm (a :: l) := by
  induction l with
  | nil => simp [sortedInsert]
  | cons b t ih =>
    simp only [sortedInsert]
    split
    · exact List.Perm.refl _
    · exact (ih.cons b).trans (List.Perm.swap a b t)

theorem sortBy_perm (le : α → α → Bool) (l : List α) : (sortBy le l).Perm l := by
  induction l with
  | nil => simp [sortBy]
  | cons a t ih =>
    have h : sortBy le (a :: t) = sortedInsert le a (sortBy le t) := rfl
    rw [h]
    exact (sortedInsert_perm le a (sortBy le t)).trans (ih.cons a)

theorem sortedInsert_pairwise (le : α → α → Bool)
    (htot : ∀ x y, le x y = true ∨ le y x = true)
    (htrans : ∀ x y z, le x y = true → le y z = true → le x z = true)
    (a : α) (l : List α) (hl : l.Pairwise (fun x y => le x y = true)) :
    (sortedInsert le a l).Pairwise (fun x y => le x y = true) := by
  induction l with
  | nil => simp [sortedInsert]
  | cons b t ih =>
    rcases List.pairwise_cons.mp hl with ⟨hb, ht⟩
    simp only [sortedInsert]
    split
    next hab =>
      refine List.pairwise_cons.mpr ⟨?_, hl⟩
      intro x hx
      rcases List.mem_cons.mp hx with rfl | hx
      · exact hab
      · exact htrans a b x hab (hb x hx)
    next hab =>
      refine List.pairwise_cons.mpr ⟨?_, ih ht⟩
      intro x hx
      rcases List.mem_cons.mp ((sortedInsert_perm le a t).mem_iff.mp hx) with hxa | hx
      · subst hxa
        rcases htot x b with h | h
        · exact absurd h hab
        · exact h
      · exact hb x hx

theorem sortBy_pairwise (le : α → α → Bool)
    (htot : ∀ x y, le x y = true ∨ le y x = true)
    (htrans : ∀ x y z, le x y = true → le y z = true → le x z = true)
    (l : List α) : (sortBy le l).Pairwise (fun x y => le x y = true) := by
  induction l with
  | nil => simp [sortBy]
  | cons a t ih => exact sortedInsert_pairwise le htot htrans a (sortBy le t) ih

/-! ## SHA-256 cross-checks against the FIPS 180-4 test vectors -/

theorem sha256Hex_abc :
    sha256Hex [97, 98, 99] =
      "ba7816bf8f01cfea414140de5dae2223b00361a396177a9cb410ff61f20015ad" := by
  decide

theorem sha256Hex_empty :
    sha256Hex [] =
      "e3b0c44298fc1c149afbf4c8996fb92427ae41e4649b934ca495991b7852b855" := by
  decide

/-! ## Audit bookkeeping lemmas -/

theorem log_action_audit (db : DB) (a : String) (d : List (String × JVal)) (n : String) :
    (log_action db a d n).audit =
      db.audit ++ [{ id := db.nextAuditId, action := a, details := d, ts := n }] := rfl

theorem syncOne_audit {db db2 : DB} {i : Nat} {k due : String}
    (h : syncOne db i k due = .ok db2) : db2.audit = db.audit := by
  unfold syncOne at h
  split at h
  · cases h; rfl
  · split at h
    · cases h; rfl
    · cases h

theorem sync_alerts_audit {db db2 : DB} {i : Nat} {r w : String}
    (h : sync_alerts db i r w = .ok db2) : db2.audit = db.audit := by
  unfold sync_alerts at h
  cases h1 : syncOne db i "return" r with
  | error e => rw [h1] at h; simp [Except.bind] at h
  | ok dbm =>
    rw [h1] at h
    simp only [Except.bind] at h
    rw [syncOne_audit h, syncOne_audit h1]

theorem add_file_audit {db : DB} {i : Nat} {fd : Descriptor} {now : String}
    {r : Nat × DB} (h : add_file db i fd now = .ok r) :
    db.audit <+: r.2.audit := by
  unfold add_file at h
  split at h
  · cases h
    simp [log_action_audit]
  · cases h

theorem except_bind_ok {α β : Type} {x : Except DBError α} {f : α → Except DBError β}
    {b : β} (h : x.bind f = .ok b) : ∃ a, x = .ok a ∧ f a = .ok b := by
  cases x with
  | error e => simp [Except.bind] at h
  | ok a => exact ⟨a, rfl, h⟩

theorem monad_bind_ok {α β : Type} {x : Except DBError α} {f : α → Except DBError β}
    {b : β} (h : (x >>= f) = .ok b) : ∃ a, x = .ok a ∧ f a = .ok b :=
  except_bind_ok (x := x) h

theorem files_fold_audit {i : Nat} {now : String} :
    ∀ {fds : List Descriptor} {db db2 : DB},
      List.foldlM (fun acc fd => (add_file acc i fd now).map (fun r => r.2)) db fds
        = .ok db2 → db.audit <+: db2.audit := by
  intro fds
  induction fds with
  | nil =>
    intro db db2 h
    simp only [List.foldlM, pure, Except.pure, Except.ok.injEq] at h
    exact h ▸ List.prefix_refl _
  | cons fd t ih =>
    intro db db2 h
    simp only [List.foldlM] at h
    obtain ⟨dbm, h1, h2⟩ := monad_bind_ok h
    cases hcall : add_file db i fd now with
    | error e => rw [hcall] at h1; simp [Except.map] at h1
    | ok r =>
      rw [hcall] at h1
      simp only [Except.map, Except.ok.injEq] at h1
      have hpre : db.audit <+: dbm.audit := h1 ▸ add_file_audit hcall
      exact hpre.trans (ih h2)

theorem update_item_audit {db db2 : DB} {i : Nat} {d : ItemData} {now : String}
    (h : update_item db i d now = .ok db2) : db.audit <+: db2.audit := by
  unfold update_item at h
  obtain ⟨dbm, h1, h2⟩ := except_bind_ok h
  cases h2
  rw [log_action_audit, sync_alerts_audit h1]
  exact List.prefix_append _ _

theorem add_item_audit {db : DB} {d : ItemData} {fls : List Descriptor} {now : String}
    {r : Nat × DB} (h : add_item db d fls now = .ok r) : db.audit <+: r.2.audit := by
  unfold add_item at h
  obtain ⟨dbm, h1, h2⟩ := except_bind_ok h
  obtain ⟨db3, h3, h4⟩ := except_bind_ok h2
  cases h4
  rw [log_action_audit]
  have hm : db.audit = dbm.audit := (sync_alerts_audit h1).symm
  rw [hm]
  exact (files_fold_audit h3).trans (List.prefix_append _ _)

theorem processDue_audit {nf : Option ((String × String) → Bool)} {ts : String} :
    ∀ {rs : List DueRow} {db db2 : DB},
      (processDue nf ts rs db = .ok db2 → db2.audit = db.audit) ∧
      (processDue nf ts rs db = .error db2 → db2.audit = db.audit) := by
  intro rs
  induction rs with
  | nil =>
    intro db db2
    constructor
    · intro h; cases h; rfl
    · intro h; cases h
  | cons r t ih =>
    intro db db2
    cases nf with
    | none =>
      constructor
      · intro h
        simp only [processDue] at h
        exact (ih.1 h).trans rfl
      · intro h
        simp only [processDue] at h
        exact (ih.2 h).trans rfl
    | some f =>
      by_cases hf : f (toastMsg r) = true
      · constructor
        · intro h
          simp only [processDue, hf, if_true] at h
          exact (ih.1 h).trans rfl
        · intro h
          simp only [processDue, hf, if_true] at h
          exact (ih.2 h).trans rfl
      · constructor
        · intro h
          simp only [processDue, hf, if_false] at h
          cases h
        · intro h
          simp only [processDue, hf, if_false] at h
          cases h; rfl

/-! ## Claims C10 and C9 -/

/-- C10: `delete_item` called with an id for which no item exists raises no
error (it is a total function of the state) and still appends an
`item_deleted` audit entry, leaving the items, files, and alerts tables
unchanged. -/
theorem C10_delete_item_absent (db : DB) (itemId : Nat) (now : String)
    (hno : db.items.any (fun it => it.id = itemId) = false) :
    delete_item db itemId now =
      { db with
        audit := db.audit ++ [{ id := db.nextAuditId, action := "item_deleted",
                                details := [("item_id", .jnum itemId)], ts := now }],
        nextAuditId := db.nextAuditId + 1 } := by
  unfold delete_item log_action
  rw [hno]
  rfl

theorem C10_witness :
    delete_item db1 99 "2024-05-01T00:00:00" =
      { db1 with
        audit := db1.audit ++ [{ id := db1.nextAuditId, action := "item_deleted",
                                 details := [("item_id", .jnum 99)],
                                 ts := "2024-05-01T00:00:00" }],
        nextAuditId := db1.nextAuditId + 1 } :=
  C10_delete_item_absent db1 99 "2024-05-01T00:00:00" (by decide)

/-- C9: `delete_item(id)` removes the item row together with all of that
item's file rows and alert rows (cascade), while every previously written
audit entry remains unchanged (the old audit log is a prefix of the new
one); and no core operation ever updates or deletes an audit row — each
operation's resulting audit log extends the old one. -/
theorem C9_delete_cascade_audit_immutable :
    (∀ (db : DB) (itemId : Nat) (now : String),
      db.items.any (fun it => it.id = itemId) = true →
      (delete_item db itemId now).items = db.items.filter (fun it => it.id ≠ itemId) ∧
      (delete_item db itemId now).files = db.files.filter (fun f => f.item_id ≠ itemId) ∧
      (delete_item db itemId now).alerts = db.alerts.filter (fun a => a.item_id ≠ itemId) ∧
      (delete_item db itemId now).audit =
        db.audit ++ [{ id := db.nextAuditId, action := "item_deleted",
                       details := [("item_id", .jnum itemId)], ts := now }]) ∧
    (∀ db d fls now r, add_item db d fls now = .ok r → db.audit <+: r.2.audit) ∧
    (∀ db i d now db2, update_item db i d now = .ok db2 → db.audit <+: db2.audit) ∧
    (∀ db i now, db.audit <+: (delete_item db i now).audit) ∧
    (∀ db i fd now r, add_file db i fd now = .ok r → db.audit <+: r.2.audit) ∧
    (∀ db i now, db.audit <+: (delete_file db i now).audit) ∧
    (∀ db i now, (mark_alert_sent db i now).audit = db.audit) ∧
    (∀ nf today ts db n db2, check_due nf today ts db = .ok (n, db2) →
       db2.audit = db.audit) ∧
    (∀ nf today ts db db2, check_due nf today ts db = .error db2 →
       db2.audit = db.audit) := by
  refine ⟨?_, ?_, ?_, ?_, ?_, ?_, ?_, ?_, ?_⟩
  · intro db itemId now hyes
    unfold delete_item log_action
    rw [hyes]
    exact ⟨rfl, rfl, rfl, rfl⟩
  · intro db d fls now r h
    exact add_item_audit h
  · intro db i d now db2 h
    exact update_item_audit h
  · intro db i now
    unfold delete_item
    split <;> (rw [log_action_audit]; exact List.prefix_append _ _)
  · intro db i fd now r h
    exact add_file_audit h
  · intro db i now
    unfold delete_file
    rw [log_action_audit]
    exact List.prefix_append _ _
  · intro db i now
    rfl
  · intro nf today ts db n db2 h
    unfold check_due at h
    cases hp : processDue nf ts (list_due_alerts db today) db with
    | error e =>
      simp only [hp, Except.map] at h
      exact Except.noConfusion h
    | ok dbm =>
      simp only [hp, Except.map, Except.ok.injEq, Prod.mk.injEq] at h
      rw [← h.2]
      exact processDue_audit.1 hp
  · intro nf today ts db db2 h
    unfold check_due at h
    cases hp : processDue nf ts (list_due_alerts db today) db with
    | ok dbm =>
      simp only [hp, Except.map] at h
      exact Except.noConfusion h
    | error e =>
      simp only [hp, Except.map, Except.error.injEq] at h
      rw [← h]
      exact processDue_audit.2 hp

theorem C9_witness :
    (delete_item db2 1 "2024-06-01T00:00:00").items =
        db2.items.filter (fun it => it.id ≠ 1) ∧
    (delete_item db2 1 "2024-06-01T00:00:00").files =
        db2.files.filter (fun f => f.item_id ≠ 1) ∧
    (delete_item db2 1 "2024-06-01T00:00:00").alerts =
        db2.alerts.filter (fun a => a.item_id ≠ 1) ∧
    (delete_item db2 1 "2024-06-01T00:00:00").audit =
      db2.audit ++ [{ id := db2.nextAuditId, action := "item_deleted",
                      details := [("item_id", .jnum 1)], ts := "2024-06-01T00:00:00" }] :=
  C9_delete_cascade_audit_immutable.1 db2 1 "2024-06-01T00:00:00" (by decide)

/-! ## Claim C2 (corrected) -/

/-- C2 counterexample: in `db1scanned` the scenario item's return alert has
been marked sent by the scan (2024-01-16), yet `returns_due` on the same day
(now+7 = 2024-01-23) still counts the item: `count_stats` reads only the
items table, so a sent alert is not excluded, contradicting the claim. -/
theorem C2_counterexample :
    (∀ a ∈ db1scanned.alerts, a.type = "return" → a.sent_at ≠ none) ∧
    db1scanned.items.length = 1 ∧
    (count_stats db1scanned "2024-01-23" "2024-03-16" "2024-01").returns_due = 1 := by
  refine ⟨by decide, by decide, by decide⟩

/-- C2 (amended): every `count_stats` statistic is computed from the items
and audit tables alone — `returns_due` counts items with
`return_until ≤ now+7` (already-passed deadlines included) and
`warranties_due` items with `warranty_until ≤ now+60`, regardless of the
alerts table; in particular marking an alert sent never changes any
statistic. -/
theorem C2_count_stats_from_items (db : DB) (p7 p60 m : String) :
    (∀ db2 : DB, db2.items = db.items → db2.audit = db.audit →
        count_stats db2 p7 p60 m = count_stats db p7 p60 m) ∧
    (count_stats db p7 p60 m).total_items = db.items.length ∧
    (count_stats db p7 p60 m).returns_due =
      db.items.countP (fun it => strLe it.return_until p7) ∧
    (count_stats db p7 p60 m).warranties_due =
      db.items.countP (fun it => strLe it.warranty_until p60) ∧
    (∀ alertId ts, count_stats (mark_alert_sent db alertId ts) p7 p60 m
        = count_stats db p7 p60 m) := by
  refine ⟨?_, rfl, ?_, ?_, ?_⟩
  · intro db2 hi ha
    unfold count_stats
    rw [hi, ha]
  · rw [List.countP_eq_length_filter]; rfl
  · rw [List.countP_eq_length_filter]; rfl
  · intro alertId ts
    rfl

theorem C2_witness :
    count_stats (mark_alert_sent db1 1 "2024-01-16T09:00:00")
        "2024-01-23" "2024-03-16" "2024-01"
      = count_stats db1 "2024-01-23" "2024-03-16" "2024-01" ∧
    count_stats { db1 with alerts := [] } "2024-01-23" "2024-03-16" "2024-01"
      = count_stats db1 "2024-01-23" "2024-03-16" "2024-01" :=
  ⟨(C2_count_stats_from_items db1 "2024-01-23" "2024-03-16" "2024-01").2.2.2.2
      1 "2024-01-16T09:00:00",
   (C2_count_stats_from_items db1 "2024-01-23" "2024-03-16" "2024-01").1
      { db1 with alerts := [] } rfl rfl⟩

/-! ## Claim C4 (corrected) -/

theorem mark_preserves_sent {db : DB} {x : Nat} {ts : String} {rid : Nat}
    (h : ∀ a ∈ db.alerts, a.id = rid → a.sent_at = some ts) :
    ∀ a ∈ (mark_alert_sent db x ts).alerts, a.id = rid → a.sent_at = some ts := by
  intro a ha hid
  unfold mark_alert_sent at ha
  simp only [List.mem_map] at ha
  obtain ⟨b, hb, rfl⟩ := ha
  by_cases hbx : b.id = x
  · simp [hbx]
  · simp only [hbx, if_false] at hid ⊢
    exact h b hb hid

theorem mark_establishes {db : DB} {ts : String} (rid : Nat) :
    ∀ a ∈ (mark_alert_sent db rid ts).alerts, a.id = rid → a.sent_at = some ts := by
  intro a ha hid
  unfold mark_alert_sent at ha
  simp only [List.mem_map] at ha
  obtain ⟨b, hb, rfl⟩ := ha
  by_cases hbx : b.id = rid
  · simp [hbx]
  · simp [hbx] at hid

theorem foldl_mark_preserves {ts : String} {rid : Nat} :
    ∀ (rs : List DueRow) (db : DB),
      (∀ a ∈ db.alerts, a.id = rid → a.sent_at = some ts) →
      ∀ a ∈ (rs.foldl (fun d r => mark_alert_sent d r.alert_id ts) db).alerts,
        a.id = rid → a.sent_at = some ts := by
  intro rs
  induction rs with
  | nil => intro db h; exact h
  | cons r t ih =>
    intro db h
    exact ih (mark_alert_sent db r.alert_id ts) (mark_preserves_sent h)

theorem foldl_mark_sent {ts : String} :
    ∀ (rs : List DueRow) (db : DB) (r : DueRow), r ∈ rs →
      ∀ a ∈ (rs.foldl (fun d r => mark_alert_sent d r.alert_id ts) db).alerts,
        a.id = r.alert_id → a.sent_at = some ts := by
  intro rs
  induction rs with
  | nil => intro db r hr; cases hr
  | cons q t ih =>
    intro db r hr
    rcases List.mem_cons.mp hr with hrq | hr
    · subst hrq
      exact foldl_mark_preserves t (mark_alert_sent db r.alert_id ts)
        (mark_establishes r.alert_id)
    · exact ih (mark_alert_sent db q.alert_id ts) r hr

theorem processDue_none_eq {ts : String} :
    ∀ (rs : List DueRow) (db : DB),
      processDue none ts rs db =
        .ok (rs.foldl (fun d r => mark_alert_sent d r.alert_id ts) db) := by
  intro rs
  induction rs with
  | nil => intro db; rfl
  | cons r t ih =>
    intro db
    simp only [processDue, List.foldl]
    exact ih _

/-- C4 (amended): when no desktop notifier is importable or constructible,
`toast` degrades to a textual log line and never blocks: the scan completes,
returns the due count, and every row of the due list is marked sent. But
when a notifier is present and its `show_toast` call raises on the first due
alert, the exception propagates out of `check_due`: the scan aborts with the
database unchanged — that alert is not marked sent and no subsequent due
alert is processed. -/
theorem C4_notifier_failure (db : DB) (today ts : String) :
    (check_due none today ts db =
      .ok ((list_due_alerts db today).length,
           (list_due_alerts db today).foldl
             (fun d r => mark_alert_sent d r.alert_id ts) db)) ∧
    (∀ r ∈ list_due_alerts db today,
       ∀ a ∈ ((list_due_alerts db today).foldl
                (fun d r => mark_alert_sent d r.alert_id ts) db).alerts,
         a.id = r.alert_id → a.sent_at = some ts) ∧
    (∀ (f : (String × String) → Bool) (r : DueRow) (rs : List DueRow),
       list_due_alerts db today = r :: rs → f (toastMsg r) = false →
       check_due (some f) today ts db = .error db) := by
  refine ⟨?_, ?_, ?_⟩
  · simp only [check_due, processDue_none_eq, Except.map]
  · intro r hr a ha hid
    exact foldl_mark_sent (list_due_alerts db today) db r hr a ha hid
  · intro f r rs hdue hf
    simp [check_due, hdue, processDue, hf, Except.map]

theorem C4_counterexample :
    (list_due_alerts db2 "2024-03-01").length = 2 ∧
    check_due (some (fun _ => false)) "2024-03-01" "2024-03-01T08:00:00" db2
      = .error db2 ∧
    (∀ a ∈ db2.alerts, a.sent_at = none) := by
  refine ⟨by decide, ?_, by decide⟩
  rfl

theorem C4_witness :
    check_due (some (fun _ => false)) "2024-03-01" "2024-03-01T08:30:00" db2
      = .error db2 :=
  (C4_notifier_failure db2 "2024-03-01" "2024-03-01T08:30:00").2.2 (fun _ => false)
    { alert_id := 1, type := "return", due_on := "2024-01-15", sent_at := none,
      item_id := 1, title := "Laptop", store := "Fnac" }
    [{ alert_id := 3, type := "return", due_on := "2024-02-17", sent_at := none,
       item_id := 2, title := "Desk", store := "Ikea" }]
    (by decide) rfl

/-! ## Claim C7 (storage dedup) -/

theorem find?_append_left_none {α : Type} (q : α → Bool) {l₁ : List α} (l₂ : List α)
    (h : List.find? q l₁ = none) : List.find? q (l₁ ++ l₂) = List.find? q l₂ := by
  induction l₁ with
  | nil => rfl
  | cons a t ih =>
    cases hqa : q a with
    | true => simp [List.find?, hqa] at h
    | false =>
      simp only [List.cons_append, List.find?, hqa] at h ⊢
      exact ih h

theorem fsLookup_find?_none {fs : FS} {p : String} (h : fsLookup fs p = none) :
    List.find? (fun e => e.1 = p) fs = none := by
  unfold fsLookup at h
  cases hf : List.find? (fun e => e.1 = p) fs with
  | none => rfl
  | some e => rw [hf] at h; simp at h

theorem fsLookup_append_self {fs : FS} {p : String} {c : List Nat}
    (h : fsLookup fs p = none) : fsLookup (fs ++ [(p, c)]) p = some c := by
  unfold fsLookup
  rw [find?_append_left_none _ _ (fsLookup_find?_none h)]
  simp [List.find?]

theorem copy_file_eq (filesDir : String) (fs : FS) (src : String) (itemId : Nat)
    (now : String) {content : List Nat} (hsrc : fsLookup fs src = some content) :
    copy_file_to_item filesDir fs src itemId now =
      .ok ({ path := destOf filesDir itemId content src,
             mime := (mimeFromExt (pathSuffixLower (destNameOf content src))).getD
               "application/octet-stream",
             size := ((fsLookup
                 (if (fsLookup fs (destOf filesDir itemId content src)).isSome then fs
                  else fs ++ [(destOf filesDir itemId content src, content)])
                 (destOf filesDir itemId content src)).getD []).length,
             checksum := sha256Hex content, uploaded_at := now },
           if (fsLookup fs (destOf filesDir itemId content src)).isSome then fs
           else fs ++ [(destOf filesDir itemId content src, content)]) := by
  unfold copy_file_to_item destOf destNameOf
  rw [hsrc]

/-- C7: `copy_file_to_item` fails with NotFound when the source file does
not exist; otherwise the destination name is the first 16 hex characters of
the SHA-256 checksum plus the original (lowercased) extension under the
per-item directory, and a second call with byte-identical content (and the
same extension) for the same item stores nothing new: exactly one file for
that destination exists on disk and the second call returns its own
descriptor pointing at the same path. -/
theorem C7_copy_file_dedup (filesDir : String) (fs : FS) (src : String)
    (itemId : Nat) (now : String) :
    (fsLookup fs src = none →
       copy_file_to_item filesDir fs src itemId now = .error .notFound) ∧
    (∀ content, fsLookup fs src = some content →
      fsLookup fs (destOf filesDir itemId content src) = none →
      copy_file_to_item filesDir fs src itemId now =
        .ok ({ path := destOf filesDir itemId content src,
               mime := (mimeFromExt (pathSuffixLower (destNameOf content src))).getD
                 "application/octet-stream",
               size := content.length,
               checksum := sha256Hex content, uploaded_at := now },
             fs ++ [(destOf filesDir itemId content src, content)]) ∧
      (fs ++ [(destOf filesDir itemId content src, content)]).countP
          (fun e => e.1 = destOf filesDir itemId content src) = 1 ∧
      (∀ src2 now2,
         fsLookup (fs ++ [(destOf filesDir itemId content src, content)]) src2
           = some content →
         pathSuffixLower src2 = pathSuffixLower src →
         copy_file_to_item filesDir
             (fs ++ [(destOf filesDir itemId content src, content)]) src2 itemId now2 =
           .ok ({ path := destOf filesDir itemId content src,
                  mime := (mimeFromExt (pathSuffixLower (destNameOf content src))).getD
                    "application/octet-stream",
                  size := content.length,
                  checksum := sha256Hex content, uploaded_at := now2 },
                fs ++ [(destOf filesDir itemId content src, content)]))) := by
  constructor
  · intro h
    unfold copy_file_to_item
    rw [h]
  · intro content hsrc hdest
    have hself := fsLookup_append_self (c := content) hdest
    refine ⟨?_, ?_, ?_⟩
    · rw [copy_file_eq filesDir fs src itemId now hsrc]
      rw [hdest]
      simp only [Option.isSome_none, Bool.false_eq_true, if_false]
      rw [hself]
      rfl
    · rw [List.countP_append]
      have h0 : fs.countP (fun e => (e.1 = destOf filesDir itemId content src : Bool)) = 0 := by
        rw [List.countP_eq_zero]
        intro e he hep
        have := List.find?_eq_none.mp (fsLookup_find?_none hdest) e he
        exact this hep
      rw [h0]
      simp
    · intro src2 now2 hsrc2 hext
      have hdn : destNameOf content src2 = destNameOf content src := by
        unfold destNameOf; rw [hext]
      have hdd : destOf filesDir itemId content src2 = destOf filesDir itemId content src := by
        unfold destOf; rw [hdn]
      rw [copy_file_eq filesDir _ src2 itemId now2 hsrc2]
      rw [hdn, hdd, hself]
      simp only [Option.isSome_some, if_true]
      rw [hself]
      rfl

theorem C7_witness :
    copy_file_to_item "files" demoFS "/tmp/receipt.txt" 7 "T1" =
      .ok ({ path := "files/7/ba7816bf8f01cfea.txt", mime := "text/plain", size := 3,
             checksum := "ba7816bf8f01cfea414140de5dae2223b00361a396177a9cb410ff61f20015ad",
             uploaded_at := "T1" },
           demoFS ++ [("files/7/ba7816bf8f01cfea.txt", [97, 98, 99])]) :=
  ((C7_copy_file_dedup "files" demoFS "/tmp/receipt.txt" 7 "T1").2 [97, 98, 99]
      (by decide) (by decide)).1

/-! ## Synchronizer lemmas (`_sync_alerts`) -/

theorem syncOne_found {db : DB} {i : Nat} {k due : String} {row : Alert}
    (h : db.alerts.find? (fun a => a.item_id = i && a.type = k) = some row) :
    syncOne db i k due =
      .ok { db with alerts := db.alerts.map (fun a =>
        if a.id = row.id then { a with due_on := due, sent_at := none } else a) } := by
  unfold syncOne
  rw [h]

theorem syncOne_inserted {db : DB} {i : Nat} {k due : String}
    (hfind : db.alerts.find? (fun a => a.item_id = i && a.type = k) = none)
    (hany : db.items.any (fun it => it.id = i) = true) :
    syncOne db i k due =
      .ok { db with
            alerts := db.alerts ++ [{ id := db.nextAlertId, item_id := i, type := k,
                                      due_on := due, sent_at := none }],
            nextAlertId := db.nextAlertId + 1 } := by
  unfold syncOne
  rw [hfind]
  simp [hany]

theorem syncOne_fk {db : DB} {i : Nat} {k due : String}
    (hfind : db.alerts.find? (fun a => a.item_id = i && a.type = k) = none)
    (hany : db.items.any (fun it => it.id = i) = false) :
    syncOne db i k due = .error .fkViolation := by
  unfold syncOne
  rw [hfind]
  simp [hany]

theorem syncOne_cases {db db1 : DB} {i : Nat} {k due : String}
    (h : syncOne db i k due = .ok db1) :
    (∃ row, db.alerts.find? (fun a => a.item_id = i && a.type = k) = some row ∧
       db1 = { db with alerts := db.alerts.map (fun a =>
         if a.id = row.id then { a with due_on := due, sent_at := none } else a) }) ∨
    (db.alerts.find? (fun a => a.item_id = i && a.type = k) = none ∧
       db.items.any (fun it => it.id = i) = true ∧
       db1 = { db with
               alerts := db.alerts ++ [{ id := db.nextAlertId, item_id := i, type := k,
                                         due_on := due, sent_at := none }],
               nextAlertId := db.nextAlertId + 1 }) := by
  cases hfind : db.alerts.find? (fun a => a.item_id = i && a.type = k) with
  | some row =>
    left
    rw [syncOne_found hfind] at h
    cases h
    exact ⟨row, rfl, rfl⟩
  | none =>
    right
    cases hany : db.items.any (fun it => it.id = i) with
    | true =>
      rw [syncOne_inserted hfind hany] at h
      cases h
      exact ⟨rfl, rfl, rfl⟩
    | false =>
      rw [syncOne_fk hfind hany] at h
      cases h

/-- `syncOne` only touches the alerts table and the alert-id counter. -/
theorem syncOne_frame {db db1 : DB} {i : Nat} {k due : String}
    (h : syncOne db i k due = .ok db1) :
    db1.items = db.items ∧ db1.files = db.files ∧ db1.audit = db.audit ∧
    db1.nextItemId = db.nextItemId ∧ db1.nextFileId = db.nextFileId ∧
    db1.nextAuditId = db.nextAuditId := by
  rcases syncOne_cases h with ⟨row, _, rfl⟩ | ⟨_, _, rfl⟩ <;>
    exact ⟨rfl, rfl, rfl, rfl, rfl, rfl⟩

theorem sync_alerts_frame {db db2 : DB} {i : Nat} {r w : String}
    (h : sync_alerts db i r w = .ok db2) :
    db2.items = db.items ∧ db2.files = db.files ∧ db2.audit = db.audit ∧
    db2.nextItemId = db.nextItemId ∧ db2.nextFileId = db.nextFileId ∧
    db2.nextAuditId = db.nextAuditId := by
  unfold sync_alerts at h
  obtain ⟨dbm, h1, h2⟩ := except_bind_ok h
  obtain ⟨f1, f2, f3, f4, f5, f6⟩ := syncOne_frame h1
  obtain ⟨g1, g2, g3, g4, g5, g6⟩ := syncOne_frame h2
  exact ⟨g1.trans f1, g2.trans f2, g3.trans f3, g4.trans f4, g5.trans f5, g6.trans f6⟩

/-- Updated rows keep their `(item_id, type)` key and their id. -/
theorem upd_keyClash (rid : Nat) (due : String) (a b : Alert) :
    keyClash (if a.id = rid then { a with due_on := due, sent_at := none } else a)
             (if b.id = rid then { b with due_on := due, sent_at := none } else b)
      ↔ keyClash a b := by
  by_cases ha : a.id = rid <;> by_cases hb : b.id = rid <;> simp [ha, hb, keyClash]

theorem syncOne_alertUnique {db db1 : DB} {i : Nat} {k due : String}
    (h : syncOne db i k due = .ok db1) (hU : alertUnique db) : alertUnique db1 := by
  rcases syncOne_cases h with ⟨row, hfind, rfl⟩ | ⟨hfind, hany, rfl⟩
  · unfold alertUnique at hU ⊢
    rw [List.pairwise_map]
    exact hU.imp (fun hab => by rwa [upd_keyClash])
  · unfold alertUnique at hU ⊢
    rw [List.pairwise_append]
    refine ⟨hU, List.pairwise_singleton _ _, ?_⟩
    intro a ha b hb
    rw [List.mem_singleton] at hb
    subst hb
    intro hclash
    have := List.find?_eq_none.mp hfind a ha
    simp only [Bool.and_eq_true, decide_eq_true_eq, not_and] at this
    exact this (by rw [hclash.1]) (by rw [hclash.2])

theorem syncOne_alertIdsWF {db db1 : DB} {i : Nat} {k due : String}
    (h : syncOne db i k due = .ok db1) (hW : alertIdsWF db) : alertIdsWF db1 := by
  rcases syncOne_cases h with ⟨row, hfind, rfl⟩ | ⟨hfind, hany, rfl⟩
  · constructor
    · have : (List.map (fun a => a.id) (db.alerts.map (fun a =>
          if a.id = row.id then { a with due_on := due, sent_at := none } else a)))
          = db.alerts.map (fun a => a.id) := by
        rw [List.map_map]
        apply List.map_congr_left
        intro a _
        by_cases hid : a.id = row.id <;> simp [hid]
      rw [this]
      exact hW.1
    · intro a ha
      rw [List.mem_map] at ha
      obtain ⟨b, hb, rfl⟩ := ha
      by_cases hid : b.id = row.id
      · rw [if_pos hid]
        exact hW.2 b hb
      · rw [if_neg hid]
        exact hW.2 b hb
  · constructor
    · rw [List.map_append, List.nodup_append]
      refine ⟨hW.1, List.nodup_singleton _, ?_⟩
      intro x hx hy
      rw [List.mem_map] at hx
      obtain ⟨b, hb, rfl⟩ := hx
      simp only [List.map_cons, List.map_nil, List.mem_singleton] at hy
      exact absurd hy (Nat.ne_of_lt (hW.2 b hb))
    · intro a ha
      rcases List.mem_append.mp ha with ha | ha
      · exact Nat.lt_succ_of_lt (hW.2 a ha)
      · rw [List.mem_singleton] at ha
        subst ha
        exact Nat.lt_succ_self _

theorem syncOne_alertTypesWF {db db1 : DB} {i : Nat} {k due : String}
    (h : syncOne db i k due = .ok db1) (hk : k = "return" ∨ k = "warranty")
    (hT : alertTypesWF db) : alertTypesWF db1 := by
  rcases syncOne_cases h with ⟨row, hfind, rfl⟩ | ⟨hfind, hany, rfl⟩
  · intro a ha
    rw [List.mem_map] at ha
    obtain ⟨b, hb, rfl⟩ := ha
    by_cases hid : b.id = row.id
    · rw [if_pos hid]
      exact hT b hb
    · rw [if_neg hid]
      exact hT b hb
  · intro a ha
    rcases List.mem_append.mp ha with ha | ha
    · exact hT a ha
    · rw [List.mem_singleton] at ha
      subst ha
      exact hk

/-- After `syncOne`, an unsent row for the synchronized kind with the new
due date exists. -/
theorem syncOne_row {db db1 : DB} {i : Nat} {k due : String}
    (h : syncOne db i k due = .ok db1) :
    ∃ a ∈ db1.alerts, a.item_id = i ∧ a.type = k ∧ a.due_on = due ∧ a.sent_at = none := by
  rcases syncOne_cases h with ⟨row, hfind, rfl⟩ | ⟨hfind, hany, rfl⟩
  · have hmem : row ∈ db.alerts := List.mem_of_find?_eq_some hfind
    have hkey := List.find?_some hfind
    simp only [Bool.and_eq_true, decide_eq_true_eq] at hkey
    refine ⟨{ row with due_on := due, sent_at := none }, ?_, hkey.1, hkey.2, rfl, rfl⟩
    exact List.mem_map.mpr ⟨row, hmem, by rw [if_pos rfl]⟩
  · exact ⟨_, List.mem_append_right _ (List.mem_singleton_self _), rfl, rfl, rfl, rfl⟩

/-- Any row whose key is not the synchronized `(item, kind)` survives
`syncOne` unchanged (distinct keys force distinct ids under the PRIMARY KEY
invariant). -/
theorem syncOne_preserves_rows {db db1 : DB} {i : Nat} {k due : String}
    (h : syncOne db i k due = .ok db1) (hW : alertIdsWF db)
    {a : Alert} (ha : a ∈ db.alerts) (hkey : ¬(a.item_id = i ∧ a.type = k)) :
    a ∈ db1.alerts := by
  rcases syncOne_cases h with ⟨row, hfind, rfl⟩ | ⟨hfind, hany, rfl⟩
  · have hrmem : row ∈ db.alerts := List.mem_of_find?_eq_some hfind
    have hrkey := List.find?_some hfind
    simp only [Bool.and_eq_true, decide_eq_true_eq] at hrkey
    have hane : a ≠ row := by
      rintro rfl
      exact hkey ⟨hrkey.1, hrkey.2⟩
    have hidne : a.id ≠ row.id := by
      intro hid
      exact hane (List.inj_on_of_nodup_map hW.1 ha hrmem hid)
    exact List.mem_map.mpr ⟨a, ha, by rw [if_neg hidne]⟩
  · exact List.mem_append_left _ ha

/-- Under the at-most-one-per-key invariant, every row with the looked-up
key is the row `fetchone` returns. -/
theorem mem_key_eq_found {l : List Alert} {i : Nat} {k : String} {row : Alert}
    (hU : l.Pairwise (fun x y => ¬ keyClash x y))
    (hfind : l.find? (fun b => b.item_id = i && b.type = k) = some row)
    {a : Alert} (ha : a ∈ l) (hai : a.item_id = i) (hak : a.type = k) : a = row := by
  induction l with
  | nil => cases ha
  | cons x t ih =>
    rcases List.pairwise_cons.mp hU with ⟨hx, ht⟩
    by_cases hxk : (x.item_id = i && x.type = k) = true
    · rw [@List.find?_cons_of_pos _ (fun b => b.item_id = i && b.type = k) x t hxk] at hfind
      cases hfind
      rcases List.mem_cons.mp ha with rfl | hat
      · rfl
      · exfalso
        simp only [Bool.and_eq_true, decide_eq_true_eq] at hxk
        exact hx a hat ⟨hxk.1.trans hai.symm, hxk.2.trans hak.symm⟩
    · rw [@List.find?_cons_of_neg _ (fun b => b.item_id = i && b.type = k) x t hxk] at hfind
      rcases List.mem_cons.mp ha with rfl | hat
      · exfalso
        exact hxk (by simp [hai, hak])
      · exact ih ht hfind hat

/-- Bound on the per-key multiplicity given pairwise key distinctness. -/
theorem countP_key_le_one {l : List Alert} {i : Nat} {k : String}
    (hU : l.Pairwise (fun x y => ¬ keyClash x y)) :
    l.countP (fun a => a.item_id = i && a.type = k) ≤ 1 := by
  induction l with
  | nil => simp
  | cons a t ih =>
    rcases List.pairwise_cons.mp hU with ⟨ha, ht⟩
    by_cases hp : (a.item_id = i && a.type = k) = true
    · rw [@List.countP_cons_of_pos _ (fun a => a.item_id = i && a.type = k) a t hp]
      have h0 : t.countP (fun a => a.item_id = i && a.type = k) = 0 := by
        rw [List.countP_eq_zero]
        intro b hb hbp
        simp only [Bool.and_eq_true, decide_eq_true_eq] at hp hbp
        exact ha b hb ⟨hp.1.trans hbp.1.symm, hp.2.trans hbp.2.symm⟩
      omega
    · rw [@List.countP_cons_of_neg _ (fun a => a.item_id = i && a.type = k) a t hp]
      exact ih ht

/-- Partition of an item's alert rows into its return and warranty rows,
using the schema CHECK on `type`. -/
theorem countP_item_split {l : List Alert} (i : Nat)
    (hT : ∀ a ∈ l, a.type = "return" ∨ a.type = "warranty") :
    l.countP (fun a => a.item_id = i) =
      l.countP (fun a => a.item_id = i && a.type = "return") +
      l.countP (fun a => a.item_id = i && a.type = "warranty") := by
  induction l with
  | nil => rfl
  | cons a t ih =>
    have hT' : ∀ b ∈ t, b.type = "return" ∨ b.type = "warranty" :=
      fun b hb => hT b (List.mem_cons_of_mem a hb)
    rw [List.countP_cons, List.countP_cons, List.countP_cons, ih hT']
    rcases hT a (List.mem_cons_self a t) with hr | hw
    · by_cases hi : a.item_id = i <;> simp [hr, hi] <;> omega
    · by_cases hi : a.item_id = i <;> simp [hw, hi] <;> omega

/-- When a row with the synchronized key already carries the new due date
unsent, `syncOne` is a no-op. -/
theorem syncOne_idem {db : DB} {i : Nat} {k due : String}
    (hU : alertUnique db) (hW : alertIdsWF db)
    (hrow : ∃ a ∈ db.alerts, a.item_id = i ∧ a.type = k ∧ a.due_on = due ∧ a.sent_at = none) :
    syncOne db i k due = .ok db := by
  obtain ⟨a, ha, hai, hak, hadue, hasent⟩ := hrow
  have hsome : (db.alerts.find? (fun b => b.item_id = i && b.type = k)).isSome = true := by
    rw [List.find?_isSome]
    exact ⟨a, ha, by simp [hai, hak]⟩
  obtain ⟨row, hfind⟩ := Option.isSome_iff_exists.mp hsome
  have hrowa : a = row := mem_key_eq_found hU hfind ha hai hak
  have hmap : db.alerts.map (fun b =>
      if b.id = row.id then { b with due_on := due, sent_at := none } else b) = db.alerts := by
    have hid : ∀ b ∈ db.alerts,
        (if b.id = row.id then { b with due_on := due, sent_at := none } else b) = b := by
      intro b hb
      by_cases hbid : b.id = row.id
      · rw [if_pos hbid]
        have hbrow : b = row := List.inj_on_of_nodup_map hW.1 hb
          (List.mem_of_find?_eq_some hfind) hbid
        have h1 : b.due_on = due := by rw [hbrow, ← hrowa]; exact hadue
        have h2 : b.sent_at = none := by rw [hbrow, ← hrowa]; exact hasent
        rw [← h1, ← h2]
      · rw [if_neg hbid]
    exact (List.map_congr_left hid).trans (List.map_id _)
  rw [syncOne_found hfind, hmap]

theorem sync_alerts_preserves {db db2 : DB} {i : Nat} {r w : String}
    (h : sync_alerts db i r w = .ok db2) :
    (alertUnique db → alertUnique db2) ∧ (alertIdsWF db → alertIdsWF db2) ∧
    (alertTypesWF db → alertTypesWF db2) := by
  unfold sync_alerts at h
  obtain ⟨db1, h1, h2⟩ := except_bind_ok h
  exact ⟨fun hU => syncOne_alertUnique h2 (syncOne_alertUnique h1 hU),
         fun hW => syncOne_alertIdsWF h2 (syncOne_alertIdsWF h1 hW),
         fun hT => syncOne_alertTypesWF h2 (Or.inr rfl)
           (syncOne_alertTypesWF h1 (Or.inl rfl) hT)⟩

/-- After `_sync_alerts`, one unsent row with each new due date exists. -/
theorem sync_alerts_rows {db db2 : DB} {i : Nat} {r w : String}
    (h : sync_alerts db i r w = .ok db2) (hW : alertIdsWF db) :
    (∃ a ∈ db2.alerts, a.item_id = i ∧ a.type = "return" ∧ a.due_on = r ∧
       a.sent_at = none) ∧
    (∃ a ∈ db2.alerts, a.item_id = i ∧ a.type = "warranty" ∧ a.due_on = w ∧
       a.sent_at = none) := by
  unfold sync_alerts at h
  obtain ⟨db1, h1, h2⟩ := except_bind_ok h
  constructor
  · obtain ⟨a, ha, hai, hak, hd, hs⟩ := syncOne_row h1
    have hW1 := syncOne_alertIdsWF h1 hW
    have hmem : a ∈ db2.alerts := by
      refine syncOne_preserves_rows h2 hW1 ha ?_
      rintro ⟨_, hty⟩
      rw [hak] at hty
      exact absurd hty (by decide)
    exact ⟨a, hmem, hai, hak, hd, hs⟩
  · exact syncOne_row h2

/-- Every pre-existing row for the synchronized item has its due date
overwritten and its sent timestamp reset, whatever they were. -/
theorem sync_alerts_overwrites {db db2 : DB} {i : Nat} {r w : String}
    (hU : alertUnique db) (hW : alertIdsWF db)
    (h : sync_alerts db i r w = .ok db2) :
    (∀ a ∈ db.alerts, a.item_id = i → a.type = "return" →
       ∃ a' ∈ db2.alerts, a'.id = a.id ∧ a'.item_id = i ∧ a'.type = "return" ∧
         a'.due_on = r ∧ a'.sent_at = none) ∧
    (∀ a ∈ db.alerts, a.item_id = i → a.type = "warranty" →
       ∃ a' ∈ db2.alerts, a'.id = a.id ∧ a'.item_id = i ∧ a'.type = "warranty" ∧
         a'.due_on = w ∧ a'.sent_at = none) := by
  unfold sync_alerts at h
  obtain ⟨db1, h1, h2⟩ := except_bind_ok h
  have hU1 := syncOne_alertUnique h1 hU
  have hW1 := syncOne_alertIdsWF h1 hW
  constructor
  · intro a ha hai hak
    rcases syncOne_cases h1 with ⟨row, hfind, heq⟩ | ⟨hfind, hany, heq⟩
    · have hrowa : a = row := mem_key_eq_found hU hfind ha hai hak
      have hmem1 : { row with due_on := r, sent_at := none } ∈ db1.alerts := by
        rw [heq]
        exact List.mem_map.mpr ⟨row, List.mem_of_find?_eq_some hfind, by rw [if_pos rfl]⟩
      have hmem2 : { row with due_on := r, sent_at := none } ∈ db2.alerts := by
        refine syncOne_preserves_rows h2 hW1 hmem1 ?_
        rintro ⟨_, hty⟩
        have : row.type = "warranty" := hty
        rw [← hrowa, hak] at this
        exact absurd this (by decide)
      exact ⟨{ row with due_on := r, sent_at := none }, hmem2,
        by rw [hrowa], by rw [← hrowa]; exact hai, by rw [← hrowa]; exact hak, rfl, rfl⟩
    · exfalso
      have := List.find?_eq_none.mp hfind a ha
      exact this (by simp [hai, hak])
  · intro a ha hai hak
    have hmem1 : a ∈ db1.alerts := by
      refine syncOne_preserves_rows h1 hW ha ?_
      rintro ⟨_, hty⟩
      rw [hak] at hty
      exact absurd hty (by decide)
    rcases syncOne_cases h2 with ⟨row, hfind, heq⟩ | ⟨hfind, hany, heq⟩
    · have hrowa : a = row := mem_key_eq_found hU1 hfind hmem1 hai hak
      have hmem2 : { row with due_on := w, sent_at := none } ∈ db2.alerts := by
        rw [heq]
        exact List.mem_map.mpr ⟨row, List.mem_of_find?_eq_some hfind, by rw [if_pos rfl]⟩
      exact ⟨{ row with due_on := w, sent_at := none }, hmem2,
        by rw [hrowa], by rw [← hrowa]; exact hai, by rw [← hrowa]; exact hak, rfl, rfl⟩
    · exfalso
      have := List.find?_eq_none.mp hfind a hmem1
      exact this (by simp [hai, hak])

/-! ## Claim C5 (synchronizer re-arm and idempotence) -/

/-- C5: synchronizing alerts for an item always overwrites the due date of
every existing `(item, kind)` alert row and resets its sent timestamp to
null — whatever the previous due date or sent state was; if no row exists
one is inserted unsent; and the operation is idempotent: running it again
with the same due dates returns the same state. (Hypotheses are the schema
invariants SQLite maintains: primary-key ids and at most one row per key.) -/
theorem C5_sync_overwrite_insert_idempotent (db : DB) (i : Nat) (r w : String)
    (hU : alertUnique db) (hW : alertIdsWF db) :
    ∀ db', sync_alerts db i r w = .ok db' →
      (∀ a ∈ db.alerts, a.item_id = i → a.type = "return" →
         ∃ a' ∈ db'.alerts, a'.id = a.id ∧ a'.item_id = i ∧ a'.type = "return" ∧
           a'.due_on = r ∧ a'.sent_at = none) ∧
      (∀ a ∈ db.alerts, a.item_id = i → a.type = "warranty" →
         ∃ a' ∈ db'.alerts, a'.id = a.id ∧ a'.item_id = i ∧ a'.type = "warranty" ∧
           a'.due_on = w ∧ a'.sent_at = none) ∧
      (∃ a ∈ db'.alerts, a.item_id = i ∧ a.type = "return" ∧ a.due_on = r ∧
         a.sent_at = none) ∧
      (∃ a ∈ db'.alerts, a.item_id = i ∧ a.type = "warranty" ∧ a.due_on = w ∧
         a.sent_at = none) ∧
      sync_alerts db' i r w = .ok db' := by
  intro db' h
  obtain ⟨hov1, hov2⟩ := sync_alerts_overwrites hU hW h
  obtain ⟨hr1, hr2⟩ := sync_alerts_rows h hW
  obtain ⟨pU, pW, _⟩ := sync_alerts_preserves h
  refine ⟨hov1, hov2, hr1, hr2, ?_⟩
  unfold sync_alerts
  rw [syncOne_idem (pU hU) (pW hW) hr1]
  simp only [Except.bind]
  exact syncOne_idem (pU hU) (pW hW) hr2

theorem C5_witness :
    sync_alerts db1 1 "2024-01-15" "2026-01-01" = .ok db1 :=
  (C5_sync_overwrite_insert_idempotent db1 1 "2024-01-15" "2026-01-01"
      (by decide) (by decide) db1 (by decide)).2.2.2.2

/-! ## Claim C1 (alert-count invariant) -/

theorem add_file_frame {db : DB} {i : Nat} {fd : Descriptor} {now : String}
    {r : Nat × DB} (h : add_file db i fd now = .ok r) :
    r.2.alerts = db.alerts ∧ r.2.nextAlertId = db.nextAlertId := by
  unfold add_file at h
  split at h
  · cases h; exact ⟨rfl, rfl⟩
  · cases h

theorem files_fold_frame {i : Nat} {now : String} :
    ∀ {fds : List Descriptor} {db db2 : DB},
      List.foldlM (fun acc fd => (add_file acc i fd now).map (fun r => r.2)) db fds
        = .ok db2 → db2.alerts = db.alerts ∧ db2.nextAlertId = db.nextAlertId := by
  intro fds
  induction fds with
  | nil =>
    intro db db2 h
    simp only [List.foldlM, pure, Except.pure, Except.ok.injEq] at h
    rw [← h]
    exact ⟨rfl, rfl⟩
  | cons fd t ih =>
    intro db db2 h
    simp only [List.foldlM] at h
    obtain ⟨dbm, h1, h2⟩ := monad_bind_ok h
    cases hcall : add_file db i fd now with
    | error e => rw [hcall] at h1; simp [Except.map] at h1
    | ok r =>
      rw [hcall] at h1
      simp only [Except.map, Except.ok.injEq] at h1
      obtain ⟨ha, hn⟩ := add_file_frame hcall
      obtain ⟨ha2, hn2⟩ := ih h2
      rw [← h1] at ha2 hn2
      exact ⟨ha2.trans ha, hn2.trans hn⟩

/-- C1: after any successful `update_item`, exactly two alert rows exist
for the item — one `return` and one `warranty` — and the at-most-one-per
`(item, kind)` invariant (together with the schema CHECK and the
primary-key id invariant) is preserved, so the property holds under any
number of repeated calls; `add_item` preserves the same invariants. -/
theorem C1_alert_invariant :
    (∀ (db : DB) (i : Nat) (d : ItemData) (now : String) (db' : DB),
       alertTypesWF db → alertUnique db → alertIdsWF db →
       update_item db i d now = .ok db' →
       alertUnique db' ∧ alertTypesWF db' ∧ alertIdsWF db' ∧
       db'.alerts.countP (fun a => a.item_id = i) = 2 ∧
       db'.alerts.countP (fun a => a.item_id = i && a.type = "return") = 1 ∧
       db'.alerts.countP (fun a => a.item_id = i && a.type = "warranty") = 1) ∧
    (∀ (db : DB) (d : ItemData) (fls : List Descriptor) (now : String) (res : Nat × DB),
       alertTypesWF db → alertUnique db → alertIdsWF db →
       add_item db d fls now = .ok res →
       alertUnique res.2 ∧ alertTypesWF res.2 ∧ alertIdsWF res.2) := by
  constructor
  · intro db i d now db' hT hU hW h
    unfold update_item at h
    obtain ⟨db2, h1, h2⟩ := except_bind_ok h
    cases h2
    have hU2 : alertUnique db2 := (sync_alerts_preserves h1).1 hU
    have hW2 : alertIdsWF db2 := (sync_alerts_preserves h1).2.1 hW
    have hT2 : alertTypesWF db2 := (sync_alerts_preserves h1).2.2 hT
    obtain ⟨hrow1, hrow2⟩ := sync_alerts_rows h1 hW
    have hret : db2.alerts.countP (fun a => a.item_id = i && a.type = "return") = 1 := by
      have hle := countP_key_le_one (i := i) (k := "return") hU2
      obtain ⟨a, ha, hai, hak, _, _⟩ := hrow1
      have hpos : 0 < db2.alerts.countP (fun a => a.item_id = i && a.type = "return") :=
        List.countP_pos_iff.mpr ⟨a, ha, by simp [hai, hak]⟩
      omega
    have hwar : db2.alerts.countP (fun a => a.item_id = i && a.type = "warranty") = 1 := by
      have hle := countP_key_le_one (i := i) (k := "warranty") hU2
      obtain ⟨a, ha, hai, hak, _, _⟩ := hrow2
      have hpos : 0 < db2.alerts.countP (fun a => a.item_id = i && a.type = "warranty") :=
        List.countP_pos_iff.mpr ⟨a, ha, by simp [hai, hak]⟩
      omega
    refine ⟨hU2, hT2, hW2, ?_, hret, hwar⟩
    show db2.alerts.countP (fun a => a.item_id = i) = 2
    rw [countP_item_split i hT2, hret, hwar]
  · intro db d fls now res hT hU hW h
    unfold add_item at h
    obtain ⟨db2, h1, h2⟩ := except_bind_ok h
    obtain ⟨db3, h3, h4⟩ := except_bind_ok h2
    cases h4
    have hU2 : alertUnique db2 := (sync_alerts_preserves h1).1 hU
    have hW2 : alertIdsWF db2 := (sync_alerts_preserves h1).2.1 hW
    have hT2 : alertTypesWF db2 := (sync_alerts_preserves h1).2.2 hT
    obtain ⟨ha3, hn3⟩ := files_fold_frame h3
    refine ⟨?_, ?_, ?_⟩
    · unfold alertUnique
      show db3.alerts.Pairwise _
      rw [ha3]
      exact hU2
    · intro a ha
      refine hT2 a ?_
      rw [← ha3]
      exact ha
    · constructor
      · show (db3.alerts.map _).Nodup
        rw [ha3]
        exact hW2.1
      · intro a ha
        have ha' : a ∈ db2.alerts := by rw [← ha3]; exact ha
        show a.id < db3.nextAlertId
        rw [hn3]
        exact hW2.2 a ha'

theorem C1_witness :
    alertUnique db1updated ∧ alertTypesWF db1updated ∧ alertIdsWF db1updated ∧
    db1updated.alerts.countP (fun a => a.item_id = 1) = 2 ∧
    db1updated.alerts.countP (fun a => a.item_id = 1 && a.type = "return") = 1 ∧
    db1updated.alerts.countP (fun a => a.item_id = 1 && a.type = "warranty") = 1 :=
  C1_alert_invariant.1 db1 1 sampleData2 "2024-02-10T00:00:00" db1updated
    (by decide) (by decide) (by decide) (by decide)

/-! ## Claim C3 (corrected: no NotFound check in `update_item`) -/

/-- Unfolding equation for `update_item`. -/
theorem update_item_eq (db : DB) (i : Nat) (d : ItemData) (now : String) :
    update_item db i d now =
      (sync_alerts { db with items := db.items.map (fun it =>
          if it.id = i then
            { it with
              title := d.title, store := d.store, category := d.category,
              purchase_date := d.purchase_date, total_amount := d.total_amount,
              return_until := d.return_until, warranty_until := d.warranty_until,
              notes := d.notes, updated_at := now }
          else it) } i d.return_until d.warranty_until).bind
        (fun db2 => .ok (log_action db2 "item_updated" [("item_id", .jnum i)] now)) := rfl

/-- The field-overwriting function of `update_item` preserves row ids. -/
theorem updFn_id (d : ItemData) (now : String) (i : Nat) (it : Item) :
    (if it.id = i then
       { it with
         title := d.title, store := d.store, category := d.category,
         purchase_date := d.purchase_date, total_amount := d.total_amount,
         return_until := d.return_until, warranty_until := d.warranty_until,
         notes := d.notes, updated_at := now }
     else it).id = it.id := by
  by_cases h : it.id = i
  · rw [if_pos h]
  · rw [if_neg h]

theorem any_id_map (d : ItemData) (now : String) (i : Nat) (l : List Item) :
    (l.map (fun it =>
       if it.id = i then
         { it with
           title := d.title, store := d.store, category := d.category,
           purchase_date := d.purchase_date, total_amount := d.total_amount,
           return_until := d.return_until, warranty_until := d.warranty_until,
           notes := d.notes, updated_at := now }
       else it)).any (fun it => it.id = i) = l.any (fun it => it.id = i) := by
  induction l with
  | nil => rfl
  | cons x t ih =>
    simp only [List.map_cons, List.any_cons, ih, updFn_id]

/-- C3 counterexample: on an empty database, `update_item` for the absent
id 1 does not fail with NotFound — the blind UPDATE touches nothing and the
alert INSERT then violates the foreign key. -/
theorem C3_counterexample :
    update_item emptyDB 1 sampleData "2024-01-02T00:00:00" = .error .fkViolation ∧
    (Except.error .fkViolation : Except DBError DB) ≠ .error .notFound := by
  exact ⟨by decide, by decide⟩

/-- C3 (amended): `update_item` performs no existence check. When the id is
absent (and, as foreign-key integrity guarantees, no alert rows reference
it), the UPDATE silently affects no row and the synchronizer's INSERT fails
with a foreign-key violation — not NotFound. On an existing id it
overwrites all mutable fields, refreshes the update timestamp,
re-synchronizes both alerts unsent with the new due dates, and appends an
`item_updated` audit entry. -/
theorem C3_update_item_behavior :
    (∀ (db : DB) (i : Nat) (d : ItemData) (now : String),
       db.items.any (fun it => it.id = i) = false →
       (∀ a ∈ db.alerts, a.item_id ≠ i) →
       update_item db i d now = .error .fkViolation) ∧
    (∀ (db : DB) (i : Nat) (d : ItemData) (now : String),
       alertIdsWF db →
       db.items.any (fun it => it.id = i) = true →
       ∃ db', update_item db i d now = .ok db' ∧
         db'.items = db.items.map (fun it =>
           if it.id = i then
             { it with
               title := d.title, store := d.store, category := d.category,
               purchase_date := d.purchase_date, total_amount := d.total_amount,
               return_until := d.return_until, warranty_until := d.warranty_until,
               notes := d.notes, updated_at := now }
           else it) ∧
         db'.audit = db.audit ++ [{ id := db.nextAuditId, action := "item_updated",
                                    details := [("item_id", .jnum i)], ts := now }] ∧
         (∃ a ∈ db'.alerts, a.item_id = i ∧ a.type = "return" ∧
            a.due_on = d.return_until ∧ a.sent_at = none) ∧
         (∃ a ∈ db'.alerts, a.item_id = i ∧ a.type = "warranty" ∧
            a.due_on = d.warranty_until ∧ a.sent_at = none)) := by
  constructor
  · intro db i d now hno hdangling
    have hany1 : ({ db with items := db.items.map (fun it =>
        if it.id = i then
          { it with
            title := d.title, store := d.store, category := d.category,
            purchase_date := d.purchase_date, total_amount := d.total_amount,
            return_until := d.return_until, warranty_until := d.warranty_until,
            notes := d.notes, updated_at := now }
        else it) } : DB).items.any (fun it => it.id = i) = false := by
      show (db.items.map (fun it =>
        if it.id = i then
          { it with
            title := d.title, store := d.store, category := d.category,
            purchase_date := d.purchase_date, total_amount := d.total_amount,
            return_until := d.return_until, warranty_until := d.warranty_until,
            notes := d.notes, updated_at := now }
        else it)).any (fun it => it.id = i) = false
      rw [any_id_map]
      exact hno
    have hfindr : ({ db with items := db.items.map (fun it =>
        if it.id = i then
          { it with
            title := d.title, store := d.store, category := d.category,
            purchase_date := d.purchase_date, total_amount := d.total_amount,
            return_until := d.return_until, warranty_until := d.warranty_until,
            notes := d.notes, updated_at := now }
        else it) } : DB).alerts.find?
          (fun a => a.item_id = i && a.type = "return") = none := by
      show db.alerts.find? _ = none
      rw [List.find?_eq_none]
      intro a ha hpa
      simp only [Bool.and_eq_true, decide_eq_true_eq] at hpa
      exact hdangling a ha hpa.1
    rw [update_item_eq]
    unfold sync_alerts
    rw [syncOne_fk hfindr hany1]
    rfl
  · intro db i d now hW hyes
    have hany1 : ({ db with items := db.items.map (fun it =>
        if it.id = i then
          { it with
            title := d.title, store := d.store, category := d.category,
            purchase_date := d.purchase_date, total_amount := d.total_amount,
            return_until := d.return_until, warranty_until := d.warranty_until,
            notes := d.notes, updated_at := now }
        else it) } : DB).items.any (fun it => it.id = i) = true := by
      show (db.items.map (fun it =>
        if it.id = i then
          { it with
            title := d.title, store := d.store, category := d.category,
            purchase_date := d.purchase_date, total_amount := d.total_amount,
            return_until := d.return_until, warranty_until := d.warranty_until,
            notes := d.notes, updated_at := now }
        else it)).any (fun it => it.id = i) = true
      rw [any_id_map]
      exact hyes
    obtain ⟨dbm, hm⟩ : ∃ dbm,
        syncOne { db with items := db.items.map (fun it =>
          if it.id = i then
            { it with
              title := d.title, store := d.store, category := d.category,
              purchase_date := d.purchase_date, total_amount := d.total_amount,
              return_until := d.return_until, warranty_until := d.warranty_until,
              notes := d.notes, updated_at := now }
          else it) } i "return" d.return_until = .ok dbm := by
      cases hf : ({ db with items := db.items.map (fun it =>
          if it.id = i then
            { it with
              title := d.title, store := d.store, category := d.category,
              purchase_date := d.purchase_date, total_amount := d.total_amount,
              return_until := d.return_until, warranty_until := d.warranty_until,
              notes := d.notes, updated_at := now }
          else it) } : DB).alerts.find?
            (fun a => a.item_id = i && a.type = "return") with
      | some row => exact ⟨_, syncOne_found hf⟩
      | none => exact ⟨_, syncOne_inserted hf hany1⟩
    have hany2 : dbm.items.any (fun it => it.id = i) = true := by
      rw [(syncOne_frame hm).1]
      exact hany1
    obtain ⟨db2, hm2⟩ : ∃ db2, syncOne dbm i "warranty" d.warranty_until = .ok db2 := by
      cases hf : dbm.alerts.find? (fun a => a.item_id = i && a.type = "warranty") with
      | some row => exact ⟨_, syncOne_found hf⟩
      | none => exact ⟨_, syncOne_inserted hf hany2⟩
    have hsync : sync_alerts { db with items := db.items.map (fun it =>
        if it.id = i then
          { it with
            title := d.title, store := d.store, category := d.category,
            purchase_date := d.purchase_date, total_amount := d.total_amount,
            return_until := d.return_until, warranty_until := d.warranty_until,
            notes := d.notes, updated_at := now }
        else it) } i d.return_until d.warranty_until = .ok db2 := by
      unfold sync_alerts
      rw [hm]
      simp only [Except.bind]
      exact hm2
    obtain ⟨hfi, hff, hfa, hfni, hfnf, hfna⟩ := sync_alerts_frame hsync
    refine ⟨log_action db2 "item_updated" [("item_id", .jnum i)] now, ?_, ?_, ?_, ?_, ?_⟩
    · rw [update_item_eq, hsync]
      rfl
    · exact hfi
    · show db2.audit ++ [{ id := db2.nextAuditId, action := "item_updated",
                           details := [("item_id", .jnum i)], ts := now }] = _
      rw [hfa, hfna]
    · exact (sync_alerts_rows hsync hW).1
    · exact (sync_alerts_rows hsync hW).2

theorem C3_witness :
    ∃ db', update_item db1 1 sampleData2 "2024-02-10T00:00:00" = .ok db' ∧
      db'.items = db1.items.map (fun it =>
        if it.id = 1 then
          { it with
            title := sampleData2.title, store := sampleData2.store,
            category := sampleData2.category, purchase_date := sampleData2.purchase_date,
            total_amount := sampleData2.total_amount,
            return_until := sampleData2.return_until,
            warranty_until := sampleData2.warranty_until, notes := sampleData2.notes,
            updated_at := "2024-02-10T00:00:00" }
        else it) ∧
      db'.audit = db1.audit ++ [{ id := db1.nextAuditId, action := "item_updated",
                                  details := [("item_id", .jnum 1)],
                                  ts := "2024-02-10T00:00:00" }] ∧
      (∃ a ∈ db'.alerts, a.item_id = 1 ∧ a.type = "return" ∧
         a.due_on = sampleData2.return_until ∧ a.sent_at = none) ∧
      (∃ a ∈ db'.alerts, a.item_id = 1 ∧ a.type = "warranty" ∧
         a.due_on = sampleData2.warranty_until ∧ a.sent_at = none) :=
  C3_update_item_behavior.2 db1 1 sampleData2 "2024-02-10T00:00:00"
    (by decide) (by decide)

/-! ## Claim C6 (second scan returns 0) -/

/-- A due, unsent alert of an existing item yields a row in the due list. -/
theorem due_alert_mem {db : DB} {today : String} {a : Alert}
    (ha : a ∈ db.alerts) (hs : a.sent_at = none) (hd : strLe a.due_on today = true)
    (hit : ∃ it ∈ db.items, it.id = a.item_id) :
    ∃ r ∈ list_due_alerts db today, r.alert_id = a.id := by
  unfold list_due_alerts
  have hsome : (db.items.find? (fun it => it.id = a.item_id)).isSome = true := by
    rw [List.find?_isSome]
    obtain ⟨it, hitm, hid⟩ := hit
    exact ⟨it, hitm, by simp [hid]⟩
  obtain ⟨it, hfind⟩ := Option.isSome_iff_exists.mp hsome
  refine ⟨{ alert_id := a.id, type := a.type, due_on := a.due_on, sent_at := a.sent_at,
            item_id := it.id, title := it.title, store := it.store }, ?_, rfl⟩
  rw [(sortBy_perm _ _).mem_iff, List.mem_filterMap]
  refine ⟨a, ha, ?_⟩
  rw [if_pos ⟨hs, hd⟩, hfind]
  rfl

/-- Conversely, every due-list row comes from a due, unsent alert. -/
theorem mem_due_alert {db : DB} {today : String} {r : DueRow}
    (hr : r ∈ list_due_alerts db today) :
    ∃ a ∈ db.alerts, a.id = r.alert_id ∧ a.sent_at = none ∧
      strLe a.due_on today = true := by
  unfold list_due_alerts at hr
  rw [(sortBy_perm _ _).mem_iff, List.mem_filterMap] at hr
  obtain ⟨a, ha, hfa⟩ := hr
  by_cases hc : a.sent_at = none ∧ strLe a.due_on today = true
  · rw [if_pos hc] at hfa
    cases hfind : db.items.find? (fun it => it.id = a.item_id) with
    | none => rw [hfind] at hfa; exact Option.noConfusion hfa
    | some it =>
      rw [hfind] at hfa
      simp only [Option.map] at hfa
      refine ⟨a, ha, ?_, hc.1, hc.2⟩
      rw [← Option.some.inj hfa]
  · rw [if_neg hc] at hfa
    exact Option.noConfusion hfa

/-- One marking step composed with the remaining steps, expressed
pointwise on an alert row. -/
theorem mark_map_step (ts : String) (r : DueRow) (t : List DueRow) (a : Alert) :
    (fun b : Alert => if t.any (fun q => q.alert_id = b.id) then
        { b with sent_at := some ts } else b)
      ((fun b : Alert => if b.id = r.alert_id then
        { b with sent_at := some ts } else b) a)
    = if (r :: t).any (fun q => q.alert_id = a.id) then
        { a with sent_at := some ts } else a := by
  simp only [List.any_cons]
  by_cases h1 : a.id = r.alert_id
  · by_cases h2 : (t.any fun q => q.alert_id = a.id) = true
    · simp only [if_pos h1]
      split_ifs <;> first | rfl | (exact absurd h2 (by assumption)) | simp_all
    · simp only [if_pos h1]
      split_ifs <;> first | rfl | simp_all
  · by_cases h2 : (t.any fun q => q.alert_id = a.id) = true
    · simp only [if_neg h1]
      split_ifs <;> first | rfl | simp_all
    · simp only [if_neg h1]
      have h2q : ∀ x ∈ t, ¬(x.alert_id = a.id) := by
        intro x hx hc
        exact h2 (List.any_eq_true.mpr ⟨x, hx, by simp [hc]⟩)
      split_ifs <;> first
        | rfl
        | (exfalso
           rename_i hcond
           simp only [Bool.or_eq_true, decide_eq_true_eq, List.any_eq_true] at hcond
           rcases hcond with hc | ⟨x, hx, hc⟩
           · exact absurd hc.symm h1
           · exact absurd hc (h2q x hx))

/-- The alerts table after the marking loop: rows in the due list carry the
scan timestamp, all others are untouched. -/
theorem foldl_mark_alerts {ts : String} :
    ∀ (rs : List DueRow) (db : DB),
      (rs.foldl (fun d r => mark_alert_sent d r.alert_id ts) db).alerts =
        db.alerts.map (fun a =>
          if rs.any (fun r => r.alert_id = a.id) then { a with sent_at := some ts }
          else a) := by
  intro rs
  induction rs with
  | nil =>
    intro db
    simp only [List.foldl_nil, List.any_nil]
    have h : ∀ a ∈ db.alerts,
        (if (false : Bool) = true then { a with sent_at := some ts } else a) = id a :=
      fun a _ => rfl
    rw [List.map_congr_left h, List.map_id]
  | cons r t ih =>
    intro db
    rw [List.foldl_cons, ih]
    unfold mark_alert_sent
    rw [List.map_map]
    exact List.map_congr_left (fun a _ => mark_map_step ts r t a)

/-- C6: if `scan` is called twice in succession with no intervening state
change and no passage of time, the first call marks every due-and-unsent
alert as sent (foreign-key integrity gives each alert its item), leaves no
pending alert behind, and the second call returns 0 with the state
unchanged. -/
theorem C6_scan_twice (db : DB) (today ts ts2 : String) (hFK : alertFKWF db) :
    ∃ n db', check_due none today ts db = .ok (n, db') ∧
      (∀ a ∈ db.alerts, a.sent_at = none → strLe a.due_on today = true →
         ∀ a' ∈ db'.alerts, a'.id = a.id → a'.sent_at ≠ none) ∧
      (∀ a ∈ db'.alerts, a.sent_at = none → strLe a.due_on today = false) ∧
      check_due none today ts2 db' = .ok (0, db') := by
  refine ⟨(list_due_alerts db today).length,
    (list_due_alerts db today).foldl (fun d r => mark_alert_sent d r.alert_id ts) db,
    ?_, ?_, ?_, ?_⟩
  · simp only [check_due, processDue_none_eq, Except.map]
  · intro a ha hs hd a' ha' hid
    obtain ⟨r, hr, hrid⟩ := due_alert_mem ha hs hd (hFK a ha)
    have := foldl_mark_sent (list_due_alerts db today) db r hr a' ha' (by rw [hid, ← hrid])
    rw [this]
    exact Option.noConfusion
  · intro a' ha' hs'
    rw [foldl_mark_alerts] at ha'
    rw [List.mem_map] at ha'
    obtain ⟨a, ha, rfl⟩ := ha'
    by_cases hany : (list_due_alerts db today).any (fun r => r.alert_id = a.id) = true
    · rw [if_pos hany] at hs' ⊢
      exact absurd hs' (by simp)
    · simp only [Bool.not_eq_true] at hany
      rw [if_neg (by rw [hany]; exact Bool.noConfusion)] at hs' ⊢
      by_contra hdue
      simp only [Bool.not_eq_false] at hdue
      obtain ⟨r, hr, hrid⟩ := due_alert_mem ha hs' hdue (hFK a ha)
      have : (list_due_alerts db today).any (fun r => r.alert_id = a.id) = true :=
        List.any_eq_true.mpr ⟨r, hr, by simp [hrid]⟩
      rw [hany] at this
      exact Bool.noConfusion this
  · have hempty : list_due_alerts
        ((list_due_alerts db today).foldl (fun d r => mark_alert_sent d r.alert_id ts) db)
        today = [] := by
      rw [List.eq_nil_iff_forall_not_mem]
      intro r hr
      obtain ⟨a, ha, _, hs, hd⟩ := mem_due_alert hr
      -- reuse the no-pending fact proved just above, re-derived here
      rw [foldl_mark_alerts, List.mem_map] at ha
      obtain ⟨b, hb, heq⟩ := ha
      by_cases hany : (list_due_alerts db today).any (fun q => q.alert_id = b.id) = true
      · rw [if_pos hany] at heq
        rw [← heq] at hs
        exact Option.noConfusion hs
      · simp only [Bool.not_eq_true] at hany
        rw [if_neg (by rw [hany]; exact Bool.noConfusion)] at heq
        subst heq
        obtain ⟨q, hq, hqid⟩ := due_alert_mem hb hs hd (hFK b hb)
        have hx : (list_due_alerts db today).any (fun q => q.alert_id = b.id) = true :=
          List.any_eq_true.mpr ⟨q, hq, by simp [hqid]⟩
        rw [hany] at hx
        exact Bool.noConfusion hx
    simp only [check_due, hempty, processDue, Except.map, List.length_nil]

/-- C6 witness: the scan-twice theorem applied to the §8 scenario database on
2024-01-16, where the return alert is due and unsent. -/
theorem C6_witness :
    ∃ n db', check_due none "2024-01-16" "2024-01-16T09:00:00" db1 = .ok (n, db') ∧
      (∀ a ∈ db1.alerts, a.sent_at = none → strLe a.due_on "2024-01-16" = true →
         ∀ a' ∈ db'.alerts, a'.id = a.id → a'.sent_at ≠ none) ∧
      (∀ a ∈ db'.alerts, a.sent_at = none → strLe a.due_on "2024-01-16" = false) ∧
      check_due none "2024-01-16" "2024-01-16T10:00:00" db' = .ok (0, db') :=
  C6_scan_twice db1 "2024-01-16" "2024-01-16T09:00:00" "2024-01-16T10:00:00" (by decide)

/-! ## C8: the `LIKE '%text%'` clause versus substring matching

The chain below proves that for wildcard-free filter text the `LIKE` clause
of `list_items` is exactly the ASCII-case-insensitive substring test: the
fuel of `likeMatchAux` is irrelevant once large enough, a leading `%`
matches by dropping a prefix of the string, and a wildcard-free pattern
followed by `%` matches exactly the lowercased-prefix relation. -/

theorem likeAux_cons (f : Nat) (c : Char) (p s : List Char) :
    likeMatchAux (f + 1) (c :: p) s =
      (if c = '%' then
        likeMatchAux f p s ||
          (match s with
           | [] => false
           | _ :: s' => likeMatchAux f (c :: p) s')
      else if c = '_' then
        match s with
        | [] => false
        | _ :: s' => likeMatchAux f p s'
      else
        match s with
        | [] => false
        | d :: s' => (lowerAscii c = lowerAscii d) && likeMatchAux f p s') := rfl

theorem likeMatchAux_mono :
    ∀ (f1 f2 : Nat) (p s : List Char), p.length + s.length < f1 → f1 ≤ f2 →
      likeMatchAux f1 p s = likeMatchAux f2 p s := by
  intro f1
  induction f1 with
  | zero => intro f2 p s h _; exact absurd h (Nat.not_lt_zero _)
  | succ g ih =>
    intro f2 p s hlen hle
    cases f2 with
    | zero => exact absurd hle (by omega)
    | succ h =>
      have hg : g ≤ h := Nat.succ_le_succ_iff.mp hle
      cases p with
      | nil => rfl
      | cons c p' =>
        by_cases hc : c = '%'
        · subst hc
          cases s with
          | nil =>
            show (likeMatchAux g p' [] || false) = (likeMatchAux h p' [] || false)
            rw [ih h p' []
              (by simp only [List.length_cons, List.length_nil] at hlen ⊢; omega) hg]
          | cons d s' =>
            show (likeMatchAux g p' (d :: s') || likeMatchAux g ('%' :: p') s') =
              (likeMatchAux h p' (d :: s') || likeMatchAux h ('%' :: p') s')
            rw [ih h p' (d :: s')
                (by simp only [List.length_cons] at hlen ⊢; omega) hg,
              ih h ('%' :: p') s'
                (by simp only [List.length_cons] at hlen ⊢; omega) hg]
        · by_cases hu : c = '_'
          · subst hu
            cases s with
            | nil => rfl
            | cons d s' =>
              show likeMatchAux g p' s' = likeMatchAux h p' s'
              exact ih h p' s'
                (by simp only [List.length_cons] at hlen ⊢; omega) hg
          · cases s with
            | nil =>
              have hgf : likeMatchAux (g + 1) (c :: p') [] = false := by
                rw [likeAux_cons, if_neg hc, if_neg hu]
              have hhf : likeMatchAux (h + 1) (c :: p') [] = false := by
                rw [likeAux_cons, if_neg hc, if_neg hu]
              rw [hgf, hhf]
            | cons d s' =>
              have hgf : likeMatchAux (g + 1) (c :: p') (d :: s') =
                  ((lowerAscii c = lowerAscii d) && likeMatchAux g p' s') := by
                rw [likeAux_cons, if_neg hc, if_neg hu]
              have hhf : likeMatchAux (h + 1) (c :: p') (d :: s') =
                  ((lowerAscii c = lowerAscii d) && likeMatchAux h p' s') := by
                rw [likeAux_cons, if_neg hc, if_neg hu]
              rw [hgf, hhf,
                ih h p' s' (by simp only [List.length_cons] at hlen ⊢; omega) hg]

theorem likeMatch_eq_aux (p s : List Char) (f : Nat) (h : p.length + s.length < f) :
    likeMatchAux f p s = likeMatch p s := by
  unfold likeMatch
  rcases Nat.le_total f (p.length + s.length + 1) with hle | hle
  · exact likeMatchAux_mono f (p.length + s.length + 1) p s h hle
  · exact (likeMatchAux_mono (p.length + s.length + 1) f p s (by omega) hle).symm

theorem likeMatch_pct_nil (p : List Char) :
    likeMatch ('%' :: p) [] = likeMatch p [] := by
  show (likeMatchAux (p.length + 1 + 0) p [] || false) = likeMatch p []
  rw [Bool.or_false,
    likeMatch_eq_aux p [] (p.length + 1 + 0) (by simp only [List.length_nil]; omega)]

theorem likeMatch_pct_step (p : List Char) (d : Char) (s : List Char) :
    likeMatch ('%' :: p) (d :: s) = (likeMatch p (d :: s) || likeMatch ('%' :: p) s) := by
  show (likeMatchAux (p.length + 1 + (s.length + 1)) p (d :: s) ||
      likeMatchAux (p.length + 1 + (s.length + 1)) ('%' :: p) s) = _
  rw [likeMatch_eq_aux p (d :: s) (p.length + 1 + (s.length + 1))
      (by simp only [List.length_cons]; omega),
    likeMatch_eq_aux ('%' :: p) s (p.length + 1 + (s.length + 1))
      (by simp only [List.length_cons]; omega)]

/-- A leading `%` matches exactly when the rest of the pattern matches some
suffix of the string. -/
theorem likeMatch_pct_iff (p s : List Char) :
    likeMatch ('%' :: p) s = true ↔ ∃ n, likeMatch p (s.drop n) = true := by
  induction s with
  | nil =>
    rw [likeMatch_pct_nil]
    constructor
    · intro h; exact ⟨0, h⟩
    · rintro ⟨n, h⟩
      rwa [List.drop_nil] at h
  | cons d s' ih =>
    rw [likeMatch_pct_step, Bool.or_eq_true, ih]
    constructor
    · rintro (h | ⟨n, h⟩)
      · exact ⟨0, h⟩
      · exact ⟨n + 1, h⟩
    · rintro ⟨n, h⟩
      cases n with
      | zero => exact Or.inl h
      | succ m => exact Or.inr ⟨m, h⟩

/-- A wildcard-free pattern followed by `%` matches exactly when its ASCII
lowercasing is a prefix of the string's. -/
theorem likeMatch_plain_pct (t : List Char) :
    ∀ s : List Char, noWildcard t = true →
      (likeMatch (t ++ ['%']) s = true ↔
        (t.map lowerAscii) <+: (s.map lowerAscii)) := by
  induction t with
  | nil =>
    intro s _
    simp only [List.nil_append, List.map_nil]
    constructor
    · intro _; exact List.nil_prefix
    · intro _
      rw [likeMatch_pct_iff]
      exact ⟨s.length, by rw [List.drop_length]; rfl⟩
  | cons c t' ih =>
    intro s hW
    have h1 : (!decide (c = '%' ∨ c = '_')) = true ∧ noWildcard t' = true := by
      rw [noWildcard, List.all_cons, Bool.and_eq_true] at hW
      exact ⟨hW.1, hW.2⟩
    have hcd : ¬(c = '%' ∨ c = '_') := by
      have h2 := h1.1
      rw [Bool.not_eq_true'] at h2
      exact of_decide_eq_false h2
    have hc : ¬(c = '%') := fun h => hcd (Or.inl h)
    have hu : ¬(c = '_') := fun h => hcd (Or.inr h)
    have hW' : noWildcard t' = true := h1.2
    cases s with
    | nil =>
      constructor
      · intro h
        exfalso
        have hf : likeMatch ((c :: t') ++ ['%']) [] = false := by
          rw [List.cons_append]
          simp only [likeMatch]
          rw [likeAux_cons, if_neg hc, if_neg hu]
        rw [hf] at h
        exact Bool.noConfusion h
      · intro h
        exfalso
        rw [List.map_cons, List.map_nil, List.prefix_nil] at h
        exact List.cons_ne_nil _ _ h
    | cons d s' =>
      have hstep : likeMatch ((c :: t') ++ ['%']) (d :: s') =
          ((lowerAscii c = lowerAscii d) && likeMatch (t' ++ ['%']) s') := by
        rw [List.cons_append]
        simp only [likeMatch]
        rw [likeAux_cons, if_neg hc, if_neg hu]
        show ((lowerAscii c = lowerAscii d) &&
            likeMatchAux ((c :: (t' ++ ['%'])).length + (d :: s').length)
              (t' ++ ['%']) s') =
          ((lowerAscii c = lowerAscii d) && likeMatch (t' ++ ['%']) s')
        rw [likeMatch_eq_aux (t' ++ ['%']) s'
          ((c :: (t' ++ ['%'])).length + (d :: s').length)
          (by simp only [List.length_cons, List.length_append]; omega)]
      rw [hstep, Bool.and_eq_true, List.map_cons, List.map_cons,
        List.cons_prefix_cons, decide_eq_true_eq, ih s' hW']

/-- For wildcard-free text, `column LIKE '%text%'` is the case-insensitive
infix relation on the lowercased character lists. -/
theorem likeContains_iff (t s : String) (hW : noWildcard t.data = true) :
    likeContains t s = true ↔
      (t.data.map lowerAscii) <:+: (s.data.map lowerAscii) := by
  unfold likeContains
  rw [likeMatch_pct_iff]
  constructor
  · rintro ⟨n, h⟩
    rw [likeMatch_plain_pct t.data (s.data.drop n) hW, List.map_drop] at h
    exact List.infix_iff_prefix_suffix.mpr ⟨_, h, List.drop_suffix n _⟩
  · intro h
    obtain ⟨pre, suf, heq⟩ := h
    refine ⟨pre.length, ?_⟩
    rw [likeMatch_plain_pct t.data (s.data.drop pre.length) hW, List.map_drop, ← heq,
      List.append_assoc, List.drop_left]
    exact List.prefix_append _ _

/-- The spec-side substring test is the same infix relation. -/
theorem ciContainsB_iff (t s : String) :
    ciContainsB t s = true ↔
      (t.data.map lowerAscii) <:+: (s.data.map lowerAscii) := by
  unfold ciContainsB
  simp only [List.any_eq_true, List.mem_range]
  constructor
  · rintro ⟨n, _, h⟩
    rw [List.isPrefixOf_iff_prefix] at h
    exact List.infix_iff_prefix_suffix.mpr ⟨_, h, List.drop_suffix n _⟩
  · intro h
    obtain ⟨pre, suf, heq⟩ := h
    refine ⟨pre.length, ?_, ?_⟩
    · have hlen := congrArg List.length heq
      simp only [List.length_append] at hlen
      omega
    · rw [List.isPrefixOf_iff_prefix, ← heq, List.append_assoc, List.drop_left]
      exact List.prefix_append _ _

theorem likeContains_eq_ciContainsB (t : String) (hW : noWildcard t.data = true)
    (x : String) : likeContains t x = ciContainsB t x := by
  have hiff := (likeContains_iff t x hW).trans (ciContainsB_iff t x).symm
  cases hlc : likeContains t x with
  | false =>
    cases hcb : ciContainsB t x with
    | false => rfl
    | true =>
      rw [hiff.mpr hcb] at hlc
      exact Bool.noConfusion hlc
  | true => exact (hiff.mp hlc).symm

/-- On wildcard-free filter text the row predicate of `list_items` agrees
pointwise with the specification's predicate. -/
theorem matches_agree (f : Filters) (it : Item)
    (hW : ∀ t, activeStr f.text = some t → noWildcard t.data = true) :
    rowMatches f it = specMatches f it := by
  unfold rowMatches specMatches
  cases htext : activeStr f.text with
  | none => simp only [htext]
  | some t =>
    simp only [htext]
    rw [likeContains_eq_ciContainsB t (hW t htext) it.title,
      likeContains_eq_ciContainsB t (hW t htext) it.store,
      likeContains_eq_ciContainsB t (hW t htext) it.category]

/-- C8 (amended): for filter text without `%` or `_` wildcards, `list_items`
returns exactly the items satisfying the ANDed filter set — with the
free-text match over title/store/category read as an ASCII-case-insensitive
substring test, empty-string filters treated as absent — ordered by purchase
date descending. -/
theorem C8_list_items (db : DB) (f : Filters)
    (hW : ∀ t, activeStr f.text = some t → noWildcard t.data = true) :
    (list_items db f).Perm (db.items.filter (specMatches f)) ∧
      (list_items db f).Pairwise
        (fun a b => strLe b.purchase_date a.purchase_date = true) := by
  have hfe : db.items.filter (rowMatches f) = db.items.filter (specMatches f) :=
    List.filter_congr (fun it _ => matches_agree f it hW)
  constructor
  · show (sortBy (fun a b => strLe b.purchase_date a.purchase_date)
        (db.items.filter (rowMatches f))).Perm (db.items.filter (specMatches f))
    rw [hfe]
    exact sortBy_perm _ _
  · exact sortBy_pairwise (fun a b : Item => strLe b.purchase_date a.purchase_date)
      (fun x y => strLe_total y.purchase_date x.purchase_date)
      (fun x y z h1 h2 => strLe_trans h2 h1) _

/-- C8 counterexample to the claim as stated: the filter text `"lap"` does
match the item titled `"Laptop"` (the code's `LIKE` is case-insensitive, as
the specification's own example demands), while a case-sensitive literal
substring reading of "free-text substring match" selects nothing. -/
theorem C8_counterexample :
    ((list_items db2 { text := some "lap" }).map (fun it => it.title)) = ["Laptop"] ∧
      db2.items.filter (rowMatchesStrict { text := some "lap" }) = [] := by
  exact ⟨by decide, by decide⟩

/-- C8 witness: the amended theorem applied to the two-item database with
filter text `"lap"`. -/
theorem C8_witness :
    (list_items db2 { text := some "lap" }).Perm
        (db2.items.filter (specMatches { text := some "lap" })) ∧
      (list_items db2 { text := some "lap" }).Pairwise
        (fun a b => strLe b.purchase_date a.purchase_date = true) :=
  C8_list_items db2 { text := some "lap" }
    (fun t ht => by
      injection ht with h
      rw [← h]
      decide)
